import Mathlib

/-!
Verification development for the llm-dock dashboard core: the docker-compose
configuration manager (`src/dashboard/compose_manager.py`) and the benchmark
subsystem (`src/dashboard/benchmarking/`).  Python functions are shallowly
embedded as executable Lean definitions; external collaborators (the YAML
library, the JSON parser, the `docker compose config` checker, the filesystem
rename/copy primitives) appear as explicit parameters or small result types.
-/

namespace LlmDock
namespace Compose

/-- One entry of a service's `ports:` list in docker-compose.yml.
`get_used_ports` in the source accepts either a string `"host:container"`
(it parses the integer before the first colon), a plain string without a
colon (skipped by `get_used_ports`, but parsed as an integer when it is the
first entry examined by `add_service`), or a bare integer.  The numeric
parses are represented by the already-parsed `Nat`; non-numeric strings
(which would raise in the source) are outside the model. -/
inductive PortMapping where
  | strColon (host : Nat) (rest : String)
  | strPlain (n : Nat)
  | intPort (n : Nat)
  deriving Repr, DecidableEq

/-- The slice of a compose service definition that the manager inspects. -/
structure ServiceConf where
  ports : List PortMapping
  deriving Repr, DecidableEq

/-- A parsed docker-compose document.  `services?` is `none` when the
top-level `services` key is absent (the source then gets `{}` from
`config.get('services', {})` in readers, but raises in `_atomic_add_service`). -/
structure ComposeConfig where
  services? : Option (List (String × ServiceConf))
  deriving Repr, DecidableEq

/-- Host ports contributed by one port mapping, as collected by
`ComposeManager.get_used_ports`: `"h:c"` strings contribute the prefix,
bare ints contribute themselves, colon-free strings contribute nothing. -/
def portMappingHosts : PortMapping → List Nat
  | .strColon host _ => [host]
  | .strPlain _ => []
  | .intPort n => [n]

/-- Embedding of `ComposeManager.get_used_ports`. -/
def get_used_ports (cfg : ComposeConfig) : List Nat :=
  ((cfg.services?.getD []).map Prod.snd).foldr
    (fun sc acc => sc.ports.foldr (fun pm acc2 => portMappingHosts pm ++ acc2) acc) []

/-- The scanning loop of `ComposeManager.get_next_available_port`:
`while port <= end_port: if port not in used_ports: return port; port += 1`. -/
def nextPortLoop (used : List Nat) (endPort : Nat) (port : Nat) : Except String Nat :=
  if _h : port ≤ endPort then
    if port ∈ used then nextPortLoop used endPort (port + 1)
    else Except.ok port
  else Except.error "No available ports in range"
termination_by endPort + 1 - port
decreasing_by omega

/-- Embedding of `ComposeManager.get_next_available_port` (source defaults:
`start_port = 3300`, `end_port = 3400`): the used-port set is augmented with
the reserved dashboard port 3399 before the scan. -/
def get_next_available_port (cfg : ComposeConfig) (startPort endPort : Nat) :
    Except String Nat :=
  let used := 3399 :: get_used_ports cfg
  nextPortLoop used endPort startPort

theorem nextPortLoop_ok_iff (used : List Nat) (endPort : Nat) :
    ∀ n port, endPort + 1 - port ≤ n → ∀ p,
      (nextPortLoop used endPort port = Except.ok p ↔
        (port ≤ p ∧ p ≤ endPort ∧ p ∉ used ∧ ∀ q, port ≤ q → q < p → q ∈ used)) := by
  intro n
  induction n with
  | zero =>
    intro port hle p
    have hgt : endPort < port := by omega
    rw [nextPortLoop]
    simp only [dif_neg (by omega : ¬ port ≤ endPort)]
    constructor
    · intro h; cases h
    · rintro ⟨h1, h2, -, -⟩; omega
  | succ n ih =>
    intro port hle p
    rw [nextPortLoop]
    by_cases hb : port ≤ endPort
    · simp only [dif_pos hb]
      by_cases hm : port ∈ used
      · simp only [if_pos hm]
        rw [ih (port + 1) (by omega) p]
        constructor
        · rintro ⟨h1, h2, h3, h4⟩
          refine ⟨by omega, h2, h3, ?_⟩
          intro q hq hqp
          rcases Nat.eq_or_lt_of_le hq with rfl | hlt
          · exact hm
          · exact h4 q hlt hqp
        · rintro ⟨h1, h2, h3, h4⟩
          have hpp : port ≠ p := by rintro rfl; exact h3 hm
          refine ⟨by omega, h2, h3, fun q hq hqp => h4 q (by omega) hqp⟩
      · simp only [if_neg hm]
        constructor
        · intro h
          cases h
          exact ⟨Nat.le_refl _, hb, hm, fun q hq hqp => absurd hqp (by omega)⟩
        · rintro ⟨h1, h2, h3, h4⟩
          rcases Nat.eq_or_lt_of_le h1 with rfl | hlt
          · rfl
          · exact absurd (h4 port (Nat.le_refl _) hlt) hm
    · simp only [dif_neg hb]
      constructor
      · intro h; cases h
      · rintro ⟨h1, h2, -, -⟩; exact absurd (le_trans h1 h2) hb

theorem nextPortLoop_error_iff (used : List Nat) (endPort : Nat) :
    ∀ n port, endPort + 1 - port ≤ n →
      ((∃ e, nextPortLoop used endPort port = Except.error e) ↔
        ∀ q, port ≤ q → q ≤ endPort → q ∈ used) := by
  intro n
  induction n with
  | zero =>
    intro port hle
    rw [nextPortLoop]
    simp only [dif_neg (by omega : ¬ port ≤ endPort)]
    constructor
    · intro _ q hq hqe; omega
    · intro _; exact ⟨_, rfl⟩
  | succ n ih =>
    intro port hle
    rw [nextPortLoop]
    by_cases hb : port ≤ endPort
    · simp only [dif_pos hb]
      by_cases hm : port ∈ used
      · simp only [if_pos hm]
        rw [ih (port + 1) (by omega)]
        constructor
        · intro h q hq hqe
          rcases Nat.eq_or_lt_of_le hq with rfl | hlt
          · exact hm
          · exact h q hlt hqe
        · intro h q hq hqe
          exact h q (by omega) hqe
      · simp only [if_neg hm]
        constructor
        · rintro ⟨e, he⟩; cases he
        · intro h
          exact absurd (h port (Nat.le_refl _) hb) hm
    · simp only [dif_neg hb]
      constructor
      · intro _ q hq hqe; omega
      · intro _; exact ⟨_, rfl⟩

/-- C10: `get_next_available_port` returns the smallest port in
`[startPort, endPort]` that is neither a used host port nor the reserved
dashboard port 3399, and errors exactly when every port of the range is
used or reserved. -/
theorem get_next_available_port_correct (cfg : ComposeConfig)
    (startPort endPort p : Nat) :
    (get_next_available_port cfg startPort endPort = Except.ok p ↔
      (startPort ≤ p ∧ p ≤ endPort ∧ p ∉ get_used_ports cfg ∧ p ≠ 3399 ∧
        ∀ q, startPort ≤ q → q < p → q ∈ get_used_ports cfg ∨ q = 3399)) ∧
    ((∃ e, get_next_available_port cfg startPort endPort = Except.error e) ↔
      ∀ q, startPort ≤ q → q ≤ endPort → q ∈ get_used_ports cfg ∨ q = 3399) := by
  constructor
  · rw [get_next_available_port,
      nextPortLoop_ok_iff (3399 :: get_used_ports cfg) endPort
        (endPort + 1 - startPort) startPort (Nat.le_refl _) p]
    constructor
    · rintro ⟨h1, h2, h3, h4⟩
      refine ⟨h1, h2, fun hmem => h3 (List.mem_cons_of_mem _ hmem),
        fun heq => h3 (heq ▸ List.mem_cons_self _ _), ?_⟩
      intro q hq hqp
      rcases List.mem_cons.mp (h4 q hq hqp) with h | h
      · exact Or.inr h
      · exact Or.inl h
    · rintro ⟨h1, h2, h3, h4, h5⟩
      refine ⟨h1, h2, ?_, ?_⟩
      · intro hmem
        rcases List.mem_cons.mp hmem with h | h
        · exact h4 h
        · exact h3 h
      · intro q hq hqp
        rcases h5 q hq hqp with h | h
        · exact List.mem_cons_of_mem _ h
        · exact h ▸ List.mem_cons_self _ _
  · rw [get_next_available_port]
    rw [nextPortLoop_error_iff (3399 :: get_used_ports cfg) endPort
      (endPort + 1 - startPort) startPort (Nat.le_refl _)]
    constructor
    · intro h q hq hqe
      rcases List.mem_cons.mp (h q hq hqe) with hh | hh
      · exact Or.inr hh
      · exact Or.inl hh
    · intro h q hq hqe
      rcases h q hq hqe with hh | hh
      · exact List.mem_cons_of_mem _ hh
      · exact hh ▸ List.mem_cons_self _ _

/-- Service names present in the parsed document, as read by
`ComposeManager.get_existing_services` (`config.get('services', {}).keys()`). -/
def get_existing_services (cfg : ComposeConfig) : List String :=
  (cfg.services?.getD []).map Prod.fst

/-- The character-set test of `ComposeManager.validate_service_name`:
`service_name.replace('-', '').replace('_', '').isalnum()`.  Python returns
`False` on the empty string, hence the length guard.  ASCII alphanumerics
stand in for Python's unicode-aware `isalnum`. -/
def nameCharsOk (name : String) : Bool :=
  let t := (name.replace "-" "").replace "_" ""
  t.length > 0 && t.data.all Char.isAlphanum

/-- Embedding of `ComposeManager.validate_service_name`. -/
def validate_service_name (cfg : ComposeConfig) (name : String) : Bool × Option String :=
  if name = "" then (false, some "Service name cannot be empty")
  else if name.length > 63 then (false, some "Service name too long (max 63 characters)")
  else if ¬ nameCharsOk name then
    (false, some "Service name must be alphanumeric with hyphens/underscores")
  else if name ∈ get_existing_services cfg then (false, some "Service already exists")
  else (true, none)

/-- Embedding of `ComposeManager.validate_port`.  In the in-use branch the
source interpolates `get_next_available_port()` into the message; when that
lookup itself raises (no port free) the ValueError propagates — both branches
surface as an invalid result with some message, which is what we record. -/
def validate_port (cfg : ComposeConfig) (port : Nat) : Bool × Option String :=
  if 1024 ≤ port ∧ port ≤ 65535 then
    if port ∈ get_used_ports cfg then
      (false, some (match get_next_available_port cfg 3300 3400 with
        | Except.ok _ => "Port already in use"
        | Except.error e => e))
    else (true, none)
  else (false, some "Port must be between 1024 and 65535")

/-- The host port `add_service` extracts from the first `ports:` entry:
`int(str(ports[0]).split(':')[0])`. -/
def hostPortOf : PortMapping → Nat
  | .strColon host _ => host
  | .strPlain n => n
  | .intPort n => n

/-- Python dict assignment `d[k] = v`: replace in place when the key exists,
append otherwise. -/
def dictSet (l : List (String × ServiceConf)) (k : String) (v : ServiceConf) :
    List (String × ServiceConf) :=
  if l.any (fun kv => kv.1 = k) then l.map (fun kv => if kv.1 = k then (k, v) else kv)
  else l ++ [(k, v)]

/-- Behaviour of the external `docker compose -f <path> config` subprocess,
as observed by `ComposeManager._validate_compose_file`. -/
inductive CheckerResult where
  | exited (code : Nat) (message : String)
  | binaryMissing
  | timedOut
  | raisedOther (message : String)
  deriving Repr, DecidableEq

/-- Embedding of `ComposeManager._validate_compose_file`: exit 0 passes, a
missing checker binary passes (best-effort validation), any non-zero exit,
timeout or other failure is invalid with an error message. -/
def validate_compose_file : CheckerResult → Bool × Option String
  | .exited 0 _ => (true, none)
  | .exited (_ + 1) msg => (false, some msg)
  | .binaryMissing => (true, none)
  | .timedOut => (false, some "Validation timeout (10s)")
  | .raisedOther msg => (false, some msg)

/-- The on-disk state the manager touches: the real compose file, the
services.json database, the fixed backup path, and the sidecar temp path
(`none` = file absent). -/
structure FS where
  compose : String
  servicesDb : String
  backup : Option String
  temp : Option String
  deriving Repr, DecidableEq

/-- Observable filesystem actions of a mutating call, in order. -/
inductive Ev where
  | acquireLock
  | makeBackup (content : String)
  | writeTemp (content : String)
  | runChecker (content : String) (passed : Bool)
  | renameTempToReal (content : String)
  | writeReal (content : String)
  | restoreFromBackup (ok : Bool)
  | deleteTemp
  | releaseLock
  deriving Repr, DecidableEq

/-- How a mutating call terminates.  `valueError` is Python's `ValueError`;
`manualRecoveryError` is the `IOError("Rollback failed ... Manual recovery
required.")` that `_atomic_add_service` raises when the backup restore fails;
`restoreOSError` is the bare `OSError` from `os.replace` that escapes
`_rebuild_compose_file_locked`'s except block in the same situation. -/
inductive Outcome where
  | success
  | valueError (msg : String)
  | manualRecoveryError
  | restoreOSError
  deriving Repr, DecidableEq

/-- Filesystem effect of the `finally: if temp_path.exists():
temp_path.unlink()` epilogue. -/
def cleanupTempFS (fs : FS) : FS :=
  match fs.temp with
  | some _ => { fs with temp := none }
  | none => fs

/-- Events emitted by the same epilogue, appended to the trace so far. -/
def cleanupTempEvs (fs : FS) (evs : List Ev) : List Ev :=
  match fs.temp with
  | some _ => evs ++ [Ev.deleteTemp]
  | none => evs

/-- The except-block of `_atomic_add_service`: restore the real path from the
backup; when the restore itself fails raise `IOError` (manual recovery), and
either way the finally-block removes the temp file. -/
def addRollback (restoreOk : Bool) (err : Outcome) (fs : FS) (evs : List Ev) :
    Outcome × FS × List Ev :=
  match fs.backup with
  | some b =>
    if restoreOk then
      (err, cleanupTempFS { fs with compose := b, backup := none },
        cleanupTempEvs { fs with compose := b, backup := none }
          (evs ++ [Ev.restoreFromBackup true]))
    else
      (Outcome.manualRecoveryError, cleanupTempFS fs,
        cleanupTempEvs fs (evs ++ [Ev.restoreFromBackup false]))
  | none => (err, cleanupTempFS fs, cleanupTempEvs fs evs)

/-- Steps 4-6 of `_atomic_add_service`, after the backup (step 1, already in
the state and trace passed here) and the candidate computation: write the
candidate to the temp path, validate it with the external checker, and on
success atomically rename the temp path over the real one; on a failing
validation raise `ValueError` and roll back. -/
def addAfterParse (checker : String → CheckerResult) (restoreOk : Bool)
    (fs : FS) (cand : String) : Outcome × FS × List Ev :=
  if (validate_compose_file (checker cand)).1 then
    (Outcome.success,
      cleanupTempFS { fs with backup := some fs.compose, compose := cand, temp := none },
      cleanupTempEvs { fs with backup := some fs.compose, compose := cand, temp := none }
        [Ev.makeBackup fs.compose, Ev.writeTemp cand, Ev.runChecker cand true,
          Ev.renameTempToReal cand])
  else
    addRollback restoreOk
      (Outcome.valueError ("Invalid compose configuration: " ++
        (validate_compose_file (checker cand)).2.getD ""))
      { fs with backup := some fs.compose, temp := some cand }
      [Ev.makeBackup fs.compose, Ev.writeTemp cand, Ev.runChecker cand false]

/-- Embedding of `ComposeManager._atomic_add_service`: backup, read, insert
the service, then `addAfterParse`.  A missing `services` key raises
`ValueError` and rolls back.  `parse`/`dump` stand for the external YAML
library, `checker` for the `docker compose config` subprocess, `restoreOk`
for whether the rollback `os.replace` succeeds. -/
def atomic_add_service (parse : String → ComposeConfig) (dump : ComposeConfig → String)
    (checker : String → CheckerResult) (restoreOk : Bool)
    (fs : FS) (name : String) (svc : ServiceConf) : Outcome × FS × List Ev :=
  match (parse fs.compose).services? with
  | none =>
    addRollback restoreOk
      (Outcome.valueError "Invalid compose file: missing services section")
      { fs with backup := some fs.compose } [Ev.makeBackup fs.compose]
  | some svcs =>
    addAfterParse checker restoreOk fs (dump { services? := some (dictSet svcs name svc) })

/-- The port pre-flight of `add_service`: validate the host port of the
first `ports:` entry when one is present. -/
def addPortCheck (cfg : ComposeConfig) (svc : ServiceConf) : Bool × Option String :=
  match svc.ports.head? with
  | some pm => validate_port cfg (hostPortOf pm)
  | none => (true, none)

/-- Lock acquire/release events wrapped around a locked operation's trace. -/
def withLockEvs (r : Outcome × FS × List Ev) : Outcome × FS × List Ev :=
  (r.1, r.2.1, Ev.acquireLock :: r.2.2 ++ [Ev.releaseLock])

/-- Embedding of `ComposeManager.add_service`: pre-flight name and port
validation raises `ValueError` before the lock is taken and before any file
is touched; only then the lock is acquired and the atomic update runs. -/
def add_service (parse : String → ComposeConfig) (dump : ComposeConfig → String)
    (checker : String → CheckerResult) (restoreOk : Bool)
    (fs : FS) (name : String) (svc : ServiceConf) : Outcome × FS × List Ev :=
  if (validate_service_name (parse fs.compose) name).1 = false then
    (Outcome.valueError ((validate_service_name (parse fs.compose) name).2.getD ""), fs, [])
  else if (addPortCheck (parse fs.compose) svc).1 = false then
    (Outcome.valueError ((addPortCheck (parse fs.compose) svc).2.getD ""), fs, [])
  else
    withLockEvs (atomic_add_service parse dump checker restoreOk fs name svc)

/-- The except-block of `_rebuild_compose_file_locked`: `os.replace(backup,
real)` with no inner try — a failing restore lets the `OSError` propagate in
place of the original error; the finally-block still removes the temp file. -/
def rebuildRollback (restoreOk : Bool) (err : Outcome) (fs : FS) (evs : List Ev) :
    Outcome × FS × List Ev :=
  match fs.backup with
  | some b =>
    if restoreOk then
      (err, cleanupTempFS { fs with compose := b, backup := none },
        cleanupTempEvs { fs with compose := b, backup := none }
          (evs ++ [Ev.restoreFromBackup true]))
    else
      (Outcome.restoreOSError, cleanupTempFS fs,
        cleanupTempEvs fs (evs ++ [Ev.restoreFromBackup false]))
  | none => (err, cleanupTempFS fs, cleanupTempEvs fs evs)

/-- The temp-write/validate/commit phase of `_rebuild_compose_file_locked`,
after the backup and the candidate computation. -/
def rebuildAfterCompute (checker : String → CheckerResult) (restoreOk : Bool)
    (fs : FS) (cand : String) : Outcome × FS × List Ev :=
  if (validate_compose_file (checker cand)).1 then
    (Outcome.success,
      cleanupTempFS { fs with backup := some fs.compose, compose := cand, temp := none },
      cleanupTempEvs { fs with backup := some fs.compose, compose := cand, temp := none }
        [Ev.makeBackup fs.compose, Ev.writeTemp cand, Ev.runChecker cand true,
          Ev.renameTempToReal cand])
  else
    rebuildRollback restoreOk
      (Outcome.valueError ("Generated compose file is invalid: " ++
        (validate_compose_file (checker cand)).2.getD ""))
      { fs with backup := some fs.compose, temp := some cand }
      [Ev.makeBackup fs.compose, Ev.writeTemp cand, Ev.runChecker cand false]

/-- Embedding of `ComposeManager._rebuild_compose_file_locked`.  `compute`
stands for `_split_compose_file` plus `_generate_dynamic_section` applied to
the current compose text and the services database: it errors on a missing
marker or a failing render, otherwise yields the full candidate text. -/
def rebuild_locked (compute : String → String → Except String String)
    (checker : String → CheckerResult) (restoreOk : Bool) (fs : FS) :
    Outcome × FS × List Ev :=
  match compute fs.compose fs.servicesDb with
  | Except.error e =>
    rebuildRollback restoreOk (Outcome.valueError e)
      { fs with backup := some fs.compose } [Ev.makeBackup fs.compose]
  | Except.ok cand => rebuildAfterCompute checker restoreOk fs cand

/-- Embedding of `ComposeManager.rebuild_compose_file`: the locked rebuild
wrapped in lock acquire/release. -/
def rebuild_compose_file (compute : String → String → Except String String)
    (checker : String → CheckerResult) (restoreOk : Bool) (fs : FS) :
    Outcome × FS × List Ev :=
  withLockEvs (rebuild_locked compute checker restoreOk fs)

/-- The document produced by `remove_service`'s `del config['services'][name]`. -/
def removeCandidate (parse : String → ComposeConfig) (fs : FS) (name : String) :
    ComposeConfig :=
  { services? := some (((parse fs.compose).services?.getD []).filter (fun kv => kv.1 ≠ name)) }

/-- Embedding of `ComposeManager.remove_service`: existence check, then
under the lock a backup copy followed by a direct `_write_compose` to the
real path — no temp file, no external validation, no atomic rename. -/
def remove_service (parse : String → ComposeConfig) (dump : ComposeConfig → String)
    (fs : FS) (name : String) : Outcome × FS × List Ev :=
  if name ∈ get_existing_services (parse fs.compose) then
    (Outcome.success,
      { fs with backup := some fs.compose, compose := dump (removeCandidate parse fs name) },
      [Ev.acquireLock, Ev.makeBackup fs.compose,
        Ev.writeReal (dump (removeCandidate parse fs name)), Ev.releaseLock])
  else
    (Outcome.valueError "Service does not exist", fs, [])

theorem cleanupTempEvs_spec (fs : FS) (evs : List Ev) :
    cleanupTempEvs fs evs = evs ∨ cleanupTempEvs fs evs = evs ++ [Ev.deleteTemp] := by
  unfold cleanupTempEvs
  cases fs.temp <;> simp

theorem atomic_add_service_some (parse : String → ComposeConfig)
    (dump : ComposeConfig → String) (checker : String → CheckerResult)
    (restoreOk : Bool) (fs : FS) (name : String) (svc : ServiceConf)
    (svcs : List (String × ServiceConf))
    (h : (parse fs.compose).services? = some svcs) :
    atomic_add_service parse dump checker restoreOk fs name svc =
      addAfterParse checker restoreOk fs (dump { services? := some (dictSet svcs name svc) }) := by
  unfold atomic_add_service
  rw [h]

theorem addAfterParse_pass (checker : String → CheckerResult) (restoreOk : Bool)
    (fs : FS) (cand : String) (hv : (validate_compose_file (checker cand)).1 = true) :
    addAfterParse checker restoreOk fs cand =
      (Outcome.success,
        { fs with backup := some fs.compose, compose := cand, temp := none },
        [Ev.makeBackup fs.compose, Ev.writeTemp cand, Ev.runChecker cand true,
          Ev.renameTempToReal cand]) := by
  unfold addAfterParse
  rw [hv]
  rfl

theorem addAfterParse_fail (checker : String → CheckerResult) (restoreOk : Bool)
    (fs : FS) (cand : String) (hv : (validate_compose_file (checker cand)).1 = false) :
    addAfterParse checker restoreOk fs cand =
      addRollback restoreOk
        (Outcome.valueError ("Invalid compose configuration: " ++
          (validate_compose_file (checker cand)).2.getD ""))
        { fs with backup := some fs.compose, temp := some cand }
        [Ev.makeBackup fs.compose, Ev.writeTemp cand, Ev.runChecker cand false] := by
  unfold addAfterParse
  rw [hv]
  rfl

theorem rebuildAfterCompute_pass (checker : String → CheckerResult) (restoreOk : Bool)
    (fs : FS) (cand : String) (hv : (validate_compose_file (checker cand)).1 = true) :
    rebuildAfterCompute checker restoreOk fs cand =
      (Outcome.success,
        { fs with backup := some fs.compose, compose := cand, temp := none },
        [Ev.makeBackup fs.compose, Ev.writeTemp cand, Ev.runChecker cand true,
          Ev.renameTempToReal cand]) := by
  unfold rebuildAfterCompute
  rw [hv]
  rfl

theorem rebuildAfterCompute_fail (checker : String → CheckerResult) (restoreOk : Bool)
    (fs : FS) (cand : String) (hv : (validate_compose_file (checker cand)).1 = false) :
    rebuildAfterCompute checker restoreOk fs cand =
      rebuildRollback restoreOk
        (Outcome.valueError ("Generated compose file is invalid: " ++
          (validate_compose_file (checker cand)).2.getD ""))
        { fs with backup := some fs.compose, temp := some cand }
        [Ev.makeBackup fs.compose, Ev.writeTemp cand, Ev.runChecker cand false] := by
  unfold rebuildAfterCompute
  rw [hv]
  rfl

theorem rebuild_locked_ok (compute : String → String → Except String String)
    (checker : String → CheckerResult) (restoreOk : Bool) (fs : FS) (cand : String)
    (h : compute fs.compose fs.servicesDb = Except.ok cand) :
    rebuild_locked compute checker restoreOk fs =
      rebuildAfterCompute checker restoreOk fs cand := by
  unfold rebuild_locked
  rw [h]

theorem rebuild_locked_err (compute : String → String → Except String String)
    (checker : String → CheckerResult) (restoreOk : Bool) (fs : FS) (e : String)
    (h : compute fs.compose fs.servicesDb = Except.error e) :
    rebuild_locked compute checker restoreOk fs =
      rebuildRollback restoreOk (Outcome.valueError e)
        { fs with backup := some fs.compose } [Ev.makeBackup fs.compose] := by
  unfold rebuild_locked
  rw [h]

theorem rebuild_compose_file_eq (compute : String → String → Except String String)
    (checker : String → CheckerResult) (restoreOk : Bool) (fs : FS) :
    rebuild_compose_file compute checker restoreOk fs =
      withLockEvs (rebuild_locked compute checker restoreOk fs) := rfl

theorem remove_service_hit (parse : String → ComposeConfig) (dump : ComposeConfig → String)
    (fs : FS) (name : String) (h : name ∈ get_existing_services (parse fs.compose)) :
    remove_service parse dump fs name =
      (Outcome.success,
        { fs with backup := some fs.compose, compose := dump (removeCandidate parse fs name) },
        [Ev.acquireLock, Ev.makeBackup fs.compose,
          Ev.writeReal (dump (removeCandidate parse fs name)), Ev.releaseLock]) := by
  unfold remove_service
  rw [if_pos h]

theorem addRollback_evs (restoreOk : Bool) (err : Outcome) (fs : FS) (evs : List Ev) :
    ∃ tail, (addRollback restoreOk err fs evs).2.2 = evs ++ tail ∧
      ∀ e ∈ tail, e = Ev.restoreFromBackup true ∨ e = Ev.restoreFromBackup false ∨
        e = Ev.deleteTemp := by
  unfold addRollback
  cases hb : fs.backup with
  | none =>
    rcases cleanupTempEvs_spec fs evs with h | h
    · exact ⟨[], by simp [h], by simp⟩
    · exact ⟨[Ev.deleteTemp], by simp [h], by simp⟩
  | some b =>
    cases restoreOk with
    | true =>
      rcases cleanupTempEvs_spec { fs with compose := b, backup := none }
          (evs ++ [Ev.restoreFromBackup true]) with h | h
      · exact ⟨[Ev.restoreFromBackup true], by simp [h], by simp⟩
      · exact ⟨[Ev.restoreFromBackup true, Ev.deleteTemp], by simp [h], by simp⟩
    | false =>
      rcases cleanupTempEvs_spec fs (evs ++ [Ev.restoreFromBackup false]) with h | h
      · exact ⟨[Ev.restoreFromBackup false], by simp [h], by simp⟩
      · exact ⟨[Ev.restoreFromBackup false, Ev.deleteTemp], by simp [h], by simp⟩

theorem rebuildRollback_evs (restoreOk : Bool) (err : Outcome) (fs : FS) (evs : List Ev) :
    ∃ tail, (rebuildRollback restoreOk err fs evs).2.2 = evs ++ tail ∧
      ∀ e ∈ tail, e = Ev.restoreFromBackup true ∨ e = Ev.restoreFromBackup false ∨
        e = Ev.deleteTemp := by
  unfold rebuildRollback
  cases hb : fs.backup with
  | none =>
    rcases cleanupTempEvs_spec fs evs with h | h
    · exact ⟨[], by simp [h], by simp⟩
    · exact ⟨[Ev.deleteTemp], by simp [h], by simp⟩
  | some b =>
    cases restoreOk with
    | true =>
      rcases cleanupTempEvs_spec { fs with compose := b, backup := none }
          (evs ++ [Ev.restoreFromBackup true]) with h | h
      · exact ⟨[Ev.restoreFromBackup true], by simp [h], by simp⟩
      · exact ⟨[Ev.restoreFromBackup true, Ev.deleteTemp], by simp [h], by simp⟩
    | false =>
      rcases cleanupTempEvs_spec fs (evs ++ [Ev.restoreFromBackup false]) with h | h
      · exact ⟨[Ev.restoreFromBackup false], by simp [h], by simp⟩
      · exact ⟨[Ev.restoreFromBackup false, Ev.deleteTemp], by simp [h], by simp⟩

theorem addRollback_no_write (restoreOk : Bool) (err : Outcome) (fs : FS) (evs : List Ev)
    (c : String) (hw : Ev.writeReal c ∉ evs) (hr : Ev.renameTempToReal c ∉ evs) :
    Ev.writeReal c ∉ (addRollback restoreOk err fs evs).2.2 ∧
    Ev.renameTempToReal c ∉ (addRollback restoreOk err fs evs).2.2 := by
  obtain ⟨tail, htail, hmem⟩ := addRollback_evs restoreOk err fs evs
  rw [htail]
  refine ⟨fun hc => ?_, fun hc => ?_⟩
  · rcases List.mem_append.mp hc with h | h
    · exact hw h
    · rcases hmem _ h with h | h | h <;> simp at h
  · rcases List.mem_append.mp hc with h | h
    · exact hr h
    · rcases hmem _ h with h | h | h <;> simp at h

theorem rebuildRollback_no_write (restoreOk : Bool) (err : Outcome) (fs : FS)
    (evs : List Ev) (c : String) (hw : Ev.writeReal c ∉ evs)
    (hr : Ev.renameTempToReal c ∉ evs) :
    Ev.writeReal c ∉ (rebuildRollback restoreOk err fs evs).2.2 ∧
    Ev.renameTempToReal c ∉ (rebuildRollback restoreOk err fs evs).2.2 := by
  obtain ⟨tail, htail, hmem⟩ := rebuildRollback_evs restoreOk err fs evs
  rw [htail]
  refine ⟨fun hc => ?_, fun hc => ?_⟩
  · rcases List.mem_append.mp hc with h | h
    · exact hw h
    · rcases hmem _ h with h | h | h <;> simp at h
  · rcases List.mem_append.mp hc with h | h
    · exact hr h
    · rcases hmem _ h with h | h | h <;> simp at h

/-- C1: for both artifact mutations that validate a candidate externally
(`_atomic_add_service` and the full rebuild), a failing external validation
raises a `ValueError` and leaves the real compose file byte-identical to its
pre-mutation content (restored from the backup); when the backup restore
itself fails, a fatal error distinct from the ordinary validation
`ValueError` is raised instead (`IOError` demanding manual recovery in the
add path, the propagated `OSError` of the restore in the rebuild path). -/
theorem validation_failure_rolls_back (parse : String → ComposeConfig)
    (dump : ComposeConfig → String) (checker : String → CheckerResult)
    (restoreOk : Bool) (fs : FS) (name : String) (svc : ServiceConf)
    (compute : String → String → Except String String) :
    (∀ svcs, (parse fs.compose).services? = some svcs →
      (validate_compose_file (checker (dump { services? := some (dictSet svcs name svc) }))).1
          = false →
      (restoreOk = true →
        (∃ m, (atomic_add_service parse dump checker restoreOk fs name svc).1
            = Outcome.valueError m) ∧
        (atomic_add_service parse dump checker restoreOk fs name svc).2.1.compose
            = fs.compose) ∧
      (restoreOk = false →
        (atomic_add_service parse dump checker restoreOk fs name svc).1
            = Outcome.manualRecoveryError)) ∧
    (∀ cand, compute fs.compose fs.servicesDb = Except.ok cand →
      (validate_compose_file (checker cand)).1 = false →
      (restoreOk = true →
        (∃ m, (rebuild_compose_file compute checker restoreOk fs).1
            = Outcome.valueError m) ∧
        (rebuild_compose_file compute checker restoreOk fs).2.1.compose = fs.compose) ∧
      (restoreOk = false →
        (rebuild_compose_file compute checker restoreOk fs).1 = Outcome.restoreOSError)) ∧
    (∀ m, Outcome.manualRecoveryError ≠ Outcome.valueError m) ∧
    (∀ m, Outcome.restoreOSError ≠ Outcome.valueError m) := by
  refine ⟨?_, ?_, ?_, ?_⟩
  · intro svcs h1 h2
    rw [atomic_add_service_some parse dump checker restoreOk fs name svc svcs h1,
      addAfterParse_fail checker restoreOk fs _ h2]
    constructor
    · rintro rfl
      exact ⟨⟨_, rfl⟩, rfl⟩
    · rintro rfl
      rfl
  · intro cand h1 h2
    rw [rebuild_compose_file_eq, rebuild_locked_ok compute checker restoreOk fs cand h1,
      rebuildAfterCompute_fail checker restoreOk fs cand h2]
    constructor
    · rintro rfl
      exact ⟨⟨_, rfl⟩, rfl⟩
    · rintro rfl
      rfl
  · intro m h
    exact Outcome.noConfusion h
  · intro m h
    exact Outcome.noConfusion h

/-- C1 witness: a concrete run through both paths. -/
theorem validation_failure_rolls_back_witness :
    (∃ m, (atomic_add_service (fun _ => { services? := some [] }) (fun _ => "candidate")
        (fun _ => CheckerResult.exited 1 "bad") true
        { compose := "orig", servicesDb := "db", backup := none, temp := none }
        "svc" { ports := [] }).1 = Outcome.valueError m) ∧
    (atomic_add_service (fun _ => { services? := some [] }) (fun _ => "candidate")
        (fun _ => CheckerResult.exited 1 "bad") true
        { compose := "orig", servicesDb := "db", backup := none, temp := none }
        "svc" { ports := [] }).2.1.compose = "orig" ∧
    (atomic_add_service (fun _ => { services? := some [] }) (fun _ => "candidate")
        (fun _ => CheckerResult.exited 1 "bad") false
        { compose := "orig", servicesDb := "db", backup := none, temp := none }
        "svc" { ports := [] }).1 = Outcome.manualRecoveryError ∧
    (rebuild_compose_file (fun _ _ => Except.ok "candidate")
        (fun _ => CheckerResult.exited 1 "bad") false
        { compose := "orig", servicesDb := "db", backup := none, temp := none }).1
      = Outcome.restoreOSError := by
  have h1 := validation_failure_rolls_back (fun _ => { services? := some [] })
    (fun _ => "candidate") (fun _ => CheckerResult.exited 1 "bad") true
    { compose := "orig", servicesDb := "db", backup := none, temp := none }
    "svc" { ports := [] } (fun _ _ => Except.ok "candidate")
  have h2 := validation_failure_rolls_back (fun _ => { services? := some [] })
    (fun _ => "candidate") (fun _ => CheckerResult.exited 1 "bad") false
    { compose := "orig", servicesDb := "db", backup := none, temp := none }
    "svc" { ports := [] } (fun _ _ => Except.ok "candidate")
  exact ⟨((h1.1 [] rfl rfl).1 rfl).1, ((h1.1 [] rfl rfl).1 rfl).2,
    (h2.1 [] rfl rfl).2 rfl, (h2.2.1 "candidate" rfl rfl).2 rfl⟩

/-- C4 counterexample: `remove_service` on an existing service writes the
real compose path directly — its event trace is a backup copy followed by a
direct write, with no temp file, no external checker run, and no atomic
rename — refuting the claim that every mutating operation (including
removal) validates a temp candidate and commits by atomic rename. -/
theorem remove_service_counterexample :
    remove_service (fun _ => { services? := some [("svc", { ports := [] })] })
      (fun _ => "removed")
      { compose := "orig", servicesDb := "db", backup := none, temp := none } "svc" =
    (Outcome.success,
      { compose := "removed", servicesDb := "db", backup := some "orig", temp := none },
      [Ev.acquireLock, Ev.makeBackup "orig", Ev.writeReal "removed", Ev.releaseLock]) := by
  decide

theorem mem_lock_wrap (x : Ev) (l : List Ev) :
    x ∈ Ev.acquireLock :: l ++ [Ev.releaseLock] ↔
      x = Ev.acquireLock ∨ x ∈ l ∨ x = Ev.releaseLock := by
  simp

theorem add_service_commit (parse : String → ComposeConfig)
    (dump : ComposeConfig → String) (checker : String → CheckerResult)
    (restoreOk : Bool) (fs : FS) (name : String) (svc : ServiceConf)
    (h1 : ¬ (validate_service_name (parse fs.compose) name).1 = false)
    (h2 : ¬ (addPortCheck (parse fs.compose) svc).1 = false) :
    add_service parse dump checker restoreOk fs name svc =
      withLockEvs (atomic_add_service parse dump checker restoreOk fs name svc) := by
  unfold add_service
  rw [if_neg h1, if_neg h2]

/-- C4 amended: service addition and full rebuild follow the
temp-write/validate/atomic-rename state machine — they never write the real
file directly, and a rename of candidate content into place is always
preceded in the same trace by a temp write of that candidate and a passing
external checker run on it, a missing checker binary counting as a pass;
service removal, by contrast, writes the real file directly after a backup,
with no temp write, no checker run and no rename. -/
theorem mutation_state_machine (parse : String → ComposeConfig)
    (dump : ComposeConfig → String) (checker : String → CheckerResult)
    (restoreOk : Bool) (fs : FS) (name : String) (svc : ServiceConf)
    (compute : String → String → Except String String) :
    (∀ c, Ev.writeReal c ∉ (add_service parse dump checker restoreOk fs name svc).2.2) ∧
    (∀ c, Ev.renameTempToReal c ∈ (add_service parse dump checker restoreOk fs name svc).2.2 →
      Ev.writeTemp c ∈ (add_service parse dump checker restoreOk fs name svc).2.2 ∧
      Ev.runChecker c true ∈ (add_service parse dump checker restoreOk fs name svc).2.2) ∧
    (∀ c, Ev.writeReal c ∉ (rebuild_compose_file compute checker restoreOk fs).2.2) ∧
    (∀ c, Ev.renameTempToReal c ∈ (rebuild_compose_file compute checker restoreOk fs).2.2 →
      Ev.writeTemp c ∈ (rebuild_compose_file compute checker restoreOk fs).2.2 ∧
      Ev.runChecker c true ∈ (rebuild_compose_file compute checker restoreOk fs).2.2) ∧
    (validate_compose_file CheckerResult.binaryMissing).1 = true ∧
    (name ∈ get_existing_services (parse fs.compose) →
      (∃ c, Ev.writeReal c ∈ (remove_service parse dump fs name).2.2) ∧
      (∀ c b, Ev.runChecker c b ∉ (remove_service parse dump fs name).2.2) ∧
      (∀ c, Ev.renameTempToReal c ∉ (remove_service parse dump fs name).2.2) ∧
      (∀ c, Ev.writeTemp c ∉ (remove_service parse dump fs name).2.2)) := by
  have haap : ∀ cand c,
      (Ev.writeReal c ∉ (addAfterParse checker restoreOk fs cand).2.2) ∧
      (Ev.renameTempToReal c ∈ (addAfterParse checker restoreOk fs cand).2.2 →
        Ev.writeTemp c ∈ (addAfterParse checker restoreOk fs cand).2.2 ∧
        Ev.runChecker c true ∈ (addAfterParse checker restoreOk fs cand).2.2) := by
    intro cand c
    cases hv : (validate_compose_file (checker cand)).1 with
    | true =>
      rw [addAfterParse_pass checker restoreOk fs cand hv]
      constructor
      · intro hc
        simp at hc
      · intro hc
        simp at hc
        subst hc
        simp
    | false =>
      rw [addAfterParse_fail checker restoreOk fs cand hv]
      have := addRollback_no_write restoreOk
        (Outcome.valueError ("Invalid compose configuration: " ++
          (validate_compose_file (checker cand)).2.getD ""))
        { fs with backup := some fs.compose, temp := some cand }
        [Ev.makeBackup fs.compose, Ev.writeTemp cand, Ev.runChecker cand false]
        c (by simp) (by simp)
      exact ⟨this.1, fun hc => absurd hc this.2⟩
  have hadd : ∀ c,
      (Ev.writeReal c ∉ (atomic_add_service parse dump checker restoreOk fs name svc).2.2) ∧
      (Ev.renameTempToReal c ∈
          (atomic_add_service parse dump checker restoreOk fs name svc).2.2 →
        Ev.writeTemp c ∈ (atomic_add_service parse dump checker restoreOk fs name svc).2.2 ∧
        Ev.runChecker c true ∈
          (atomic_add_service parse dump checker restoreOk fs name svc).2.2) := by
    intro c
    cases hs : (parse fs.compose).services? with
    | none =>
      have heq : atomic_add_service parse dump checker restoreOk fs name svc =
          addRollback restoreOk
            (Outcome.valueError "Invalid compose file: missing services section")
            { fs with backup := some fs.compose } [Ev.makeBackup fs.compose] := by
        unfold atomic_add_service
        rw [hs]
      rw [heq]
      have := addRollback_no_write restoreOk
        (Outcome.valueError "Invalid compose file: missing services section")
        { fs with backup := some fs.compose } [Ev.makeBackup fs.compose]
        c (by simp) (by simp)
      exact ⟨this.1, fun hc => absurd hc this.2⟩
    | some svcs =>
      rw [atomic_add_service_some parse dump checker restoreOk fs name svc svcs hs]
      exact haap (dump { services? := some (dictSet svcs name svc) }) c
  have hreb : ∀ c,
      (Ev.writeReal c ∉ (rebuild_locked compute checker restoreOk fs).2.2) ∧
      (Ev.renameTempToReal c ∈ (rebuild_locked compute checker restoreOk fs).2.2 →
        Ev.writeTemp c ∈ (rebuild_locked compute checker restoreOk fs).2.2 ∧
        Ev.runChecker c true ∈ (rebuild_locked compute checker restoreOk fs).2.2) := by
    intro c
    cases hs : compute fs.compose fs.servicesDb with
    | error e =>
      rw [rebuild_locked_err compute checker restoreOk fs e hs]
      have := rebuildRollback_no_write restoreOk (Outcome.valueError e)
        { fs with backup := some fs.compose } [Ev.makeBackup fs.compose]
        c (by simp) (by simp)
      exact ⟨this.1, fun hc => absurd hc this.2⟩
    | ok cand =>
      rw [rebuild_locked_ok compute checker restoreOk fs cand hs]
      cases hv : (validate_compose_file (checker cand)).1 with
      | true =>
        rw [rebuildAfterCompute_pass checker restoreOk fs cand hv]
        constructor
        · intro hc
          simp at hc
        · intro hc
          simp at hc
          subst hc
          simp
      | false =>
        rw [rebuildAfterCompute_fail checker restoreOk fs cand hv]
        have := rebuildRollback_no_write restoreOk
          (Outcome.valueError ("Generated compose file is invalid: " ++
            (validate_compose_file (checker cand)).2.getD ""))
          { fs with backup := some fs.compose, temp := some cand }
          [Ev.makeBackup fs.compose, Ev.writeTemp cand, Ev.runChecker cand false]
          c (by simp) (by simp)
        exact ⟨this.1, fun hc => absurd hc this.2⟩
  have haddTop : ∀ c,
      (Ev.writeReal c ∉ (add_service parse dump checker restoreOk fs name svc).2.2) ∧
      (Ev.renameTempToReal c ∈ (add_service parse dump checker restoreOk fs name svc).2.2 →
        Ev.writeTemp c ∈ (add_service parse dump checker restoreOk fs name svc).2.2 ∧
        Ev.runChecker c true ∈
          (add_service parse dump checker restoreOk fs name svc).2.2) := by
    intro c
    by_cases h1 : (validate_service_name (parse fs.compose) name).1 = false
    · have heq : add_service parse dump checker restoreOk fs name svc =
          (Outcome.valueError ((validate_service_name (parse fs.compose) name).2.getD ""),
            fs, []) := by
        unfold add_service
        rw [if_pos h1]
      rw [heq]
      constructor
      · intro hc
        simp at hc
      · intro hc
        simp at hc
    · by_cases h2 : (addPortCheck (parse fs.compose) svc).1 = false
      · have heq : add_service parse dump checker restoreOk fs name svc =
            (Outcome.valueError ((addPortCheck (parse fs.compose) svc).2.getD ""),
              fs, []) := by
          unfold add_service
          rw [if_neg h1, if_pos h2]
        rw [heq]
        constructor
        · intro hc
          simp at hc
        · intro hc
          simp at hc
      · rw [add_service_commit parse dump checker restoreOk fs name svc h1 h2]
        have hw : (withLockEvs (atomic_add_service parse dump checker restoreOk fs
            name svc)).2.2 = Ev.acquireLock ::
              (atomic_add_service parse dump checker restoreOk fs name svc).2.2
              ++ [Ev.releaseLock] := rfl
        rw [hw]
        constructor
        · intro hc
          rcases (mem_lock_wrap _ _).mp hc with h | h | h
          · simp at h
          · exact (hadd c).1 h
          · simp at h
        · intro hc
          rcases (mem_lock_wrap _ _).mp hc with h | h | h
          · simp at h
          · have := (hadd c).2 h
            exact ⟨(mem_lock_wrap _ _).mpr (Or.inr (Or.inl this.1)),
              (mem_lock_wrap _ _).mpr (Or.inr (Or.inl this.2))⟩
          · simp at h
  have hrw : (rebuild_compose_file compute checker restoreOk fs).2.2 =
      Ev.acquireLock :: (rebuild_locked compute checker restoreOk fs).2.2
        ++ [Ev.releaseLock] := rfl
  refine ⟨fun c => (haddTop c).1, fun c => (haddTop c).2, ?_, ?_, rfl, ?_⟩
  · intro c hc
    rw [hrw] at hc
    rcases (mem_lock_wrap _ _).mp hc with h | h | h
    · simp at h
    · exact (hreb c).1 h
    · simp at h
  · intro c hc
    rw [hrw] at hc ⊢
    rcases (mem_lock_wrap _ _).mp hc with h | h | h
    · simp at h
    · have := (hreb c).2 h
      exact ⟨(mem_lock_wrap _ _).mpr (Or.inr (Or.inl this.1)),
        (mem_lock_wrap _ _).mpr (Or.inr (Or.inl this.2))⟩
    · simp at h
  · intro hmem
    rw [remove_service_hit parse dump fs name hmem]
    refine ⟨⟨dump (removeCandidate parse fs name), ?_⟩, ?_, ?_, ?_⟩
    · exact List.mem_cons_of_mem _ (List.mem_cons_of_mem _ (List.mem_cons_self _ _))
    · intro c b hc
      simp at hc
    · intro c hc
      simp at hc
    · intro c hc
      simp at hc

/-- C4 amended, witness: instantiates the state-machine theorem at a
concrete configuration, discharging the remove-side hypothesis. -/
theorem mutation_state_machine_witness :
    ∃ c, Ev.writeReal c ∈
      (remove_service (fun _ => { services? := some [("svc", { ports := [] })] })
        (fun _ => "removed")
        { compose := "orig", servicesDb := "db", backup := none, temp := none }
        "svc").2.2 := by
  exact ((mutation_state_machine (fun _ => { services? := some [("svc", { ports := [] })] })
    (fun _ => "removed") (fun _ => CheckerResult.binaryMissing)
    true { compose := "orig", servicesDb := "db", backup := none, temp := none } "svc"
    { ports := [] } (fun _ _ => Except.ok "c")).2.2.2.2.2 (by decide)).1

theorem name_dup_rejected (cfg : ComposeConfig) (name : String)
    (h : name ∈ get_existing_services cfg) :
    (validate_service_name cfg name).1 = false := by
  unfold validate_service_name
  split_ifs <;> simp_all

theorem port_in_use_rejected (cfg : ComposeConfig) (port : Nat)
    (h : port ∈ get_used_ports cfg) :
    (validate_port cfg port).1 = false := by
  unfold validate_port
  split_ifs <;> simp_all

/-- C8: an `add_service` call whose service name already exists or whose
host port (taken from the first `ports:` entry) is already used is rejected
with a `ValueError` before the lock is acquired, before the backup is
created, and before any file is written: the filesystem state (compose file
and services database alike) is returned unchanged and the event trace is
empty. -/
theorem add_service_conflict_rejected (parse : String → ComposeConfig)
    (dump : ComposeConfig → String) (checker : String → CheckerResult)
    (restoreOk : Bool) (fs : FS) (name : String) (svc : ServiceConf)
    (h : name ∈ get_existing_services (parse fs.compose) ∨
      (∃ pm rest, svc.ports = pm :: rest ∧
        hostPortOf pm ∈ get_used_ports (parse fs.compose))) :
    ∃ m, add_service parse dump checker restoreOk fs name svc
      = (Outcome.valueError m, fs, []) := by
  unfold add_service
  rcases h with h | ⟨pm, rest, hports, hmem⟩
  · have hv := name_dup_rejected (parse fs.compose) name h
    exact ⟨(validate_service_name (parse fs.compose) name).2.getD "", by rw [if_pos hv]⟩
  · by_cases hv1 : (validate_service_name (parse fs.compose) name).1 = false
    · exact ⟨(validate_service_name (parse fs.compose) name).2.getD "", by rw [if_pos hv1]⟩
    · have hp := port_in_use_rejected (parse fs.compose) (hostPortOf pm) hmem
      have hpc : (addPortCheck (parse fs.compose) svc).1 = false := by
        unfold addPortCheck
        rw [hports]
        exact hp
      exact ⟨(addPortCheck (parse fs.compose) svc).2.getD "",
        by rw [if_neg hv1, if_pos hpc]⟩

/-- C8 witness: a duplicate name and a duplicate port, each rejected with
the filesystem untouched. -/
theorem add_service_conflict_rejected_witness :
    (∃ m, add_service
      (fun _ => { services? := some [("svc", { ports := [PortMapping.strColon 3301 "8080"] })] })
      (fun _ => "d") (fun _ => CheckerResult.binaryMissing) true
      { compose := "orig", servicesDb := "db", backup := none, temp := none }
      "svc" { ports := [] }
      = (Outcome.valueError m,
        { compose := "orig", servicesDb := "db", backup := none, temp := none }, [])) ∧
    (∃ m, add_service
      (fun _ => { services? := some [("svc", { ports := [PortMapping.strColon 3301 "8080"] })] })
      (fun _ => "d") (fun _ => CheckerResult.binaryMissing) true
      { compose := "orig", servicesDb := "db", backup := none, temp := none }
      "svc2" { ports := [PortMapping.intPort 3301] }
      = (Outcome.valueError m,
        { compose := "orig", servicesDb := "db", backup := none, temp := none }, [])) := by
  constructor
  · exact add_service_conflict_rejected _ (fun _ => "d")
      (fun _ => CheckerResult.binaryMissing) true
      { compose := "orig", servicesDb := "db", backup := none, temp := none }
      "svc" { ports := [] } (Or.inl (by decide))
  · exact add_service_conflict_rejected _ (fun _ => "d")
      (fun _ => CheckerResult.binaryMissing) true
      { compose := "orig", servicesDb := "db", backup := none, temp := none }
      "svc2" { ports := [PortMapping.intPort 3301] }
      (Or.inr ⟨PortMapping.intPort 3301, [], rfl, by decide⟩)

end Compose

namespace Bench

/-- One row of the `benchmark_runs` SQLite table
(`src/dashboard/benchmarking/db.py`, `SCHEMA_SQL`).  `REAL` columns are
modelled as integers — their values are only stored and copied, never
computed with. -/
structure RunRow where
  id : String
  service_name : String
  model_path : String
  status : String
  params_json : String
  pp_avg_ts : Option Int
  pp_stddev_ts : Option Int
  tg_avg_ts : Option Int
  tg_stddev_ts : Option Int
  raw_output : Option String
  error_message : Option String
  created_at : String
  started_at : Option String
  completed_at : Option String
  build_commit : Option String
  model_type : Option String
  model_size : Option Int
  model_n_params : Option Int
  gpu_info : Option String
  cpu_info : Option String
  deriving Repr, DecidableEq

/-- The `WHERE status IN ('pending', 'running')` predicate of
`recover_stale_runs`. -/
def isStale (r : RunRow) : Bool :=
  r.status == "pending" || r.status == "running"

/-- Effect of the `recover_stale_runs` UPDATE on one row. -/
def recoverRow (now : String) (r : RunRow) : RunRow :=
  if isStale r then
    { r with
      status := "failed"
      error_message := some "Benchmark interrupted by server restart"
      completed_at := some now }
  else r

/-- Embedding of `BenchmarkDB.recover_stale_runs`: the bulk UPDATE applied
to every row, paired with the cursor rowcount (number of matched rows),
which is the returned count. -/
def recover_stale_runs (db : List RunRow) (now : String) : List RunRow × Nat :=
  (db.map (recoverRow now), db.countP (fun r => isStale r))

/-- Python truthiness of an optional string (`if started_at:`). -/
def truthyStr : Option String → Bool
  | some s => !(s == "")
  | none => false

/-- Embedding of `BenchmarkDB.update_status`: status is always set;
`started_at` and `completed_at` only when truthy; `error_message` whenever
it is not `None`.  No guard of any kind inspects the current status. -/
def update_status (db : List RunRow) (run_id status : String)
    (started_at completed_at error_message : Option String) : List RunRow :=
  db.map (fun r =>
    if r.id == run_id then
      { r with
        status := status
        started_at := if truthyStr started_at then started_at else r.started_at
        completed_at := if truthyStr completed_at then completed_at else r.completed_at
        error_message := match error_message with
          | some m => some m
          | none => r.error_message }
    else r)

/-- Embedding of `BenchmarkExecutor.cancel_benchmark`'s database effect: it
kills and drops the tracked process handle (not part of the row model) and
then unconditionally transitions the record to `cancelled` with a completion
timestamp, returning `True`. -/
def cancel_benchmark (db : List RunRow) (run_id now : String) : List RunRow × Bool :=
  (update_status db run_id "cancelled" none (some now) none, true)

/-- Embedding of `BenchmarkDB.delete_run`: `DELETE WHERE id = ?`. -/
def delete_run (db : List RunRow) (run_id : String) : List RunRow :=
  db.filter (fun r => !(r.id == run_id))

/-- Embedding of the DELETE route of `benchmarking/routes.py`
(`delete_benchmark`): look the run up; cancel it only when it is still
`pending`/`running`, otherwise delete the row. -/
def delete_benchmark (db : List RunRow) (run_id now : String) : List RunRow :=
  match db.find? (fun r => r.id == run_id) with
  | none => db
  | some r =>
    if r.status == "pending" || r.status == "running" then
      (cancel_benchmark db run_id now).1
    else delete_run db run_id

/-- Fixture row used by concrete witnesses: every nullable column empty. -/
def mkRow (id status : String) : RunRow :=
  { id := id
    service_name := "s"
    model_path := "m"
    status := status
    params_json := ""
    pp_avg_ts := none
    pp_stddev_ts := none
    tg_avg_ts := none
    tg_stddev_ts := none
    raw_output := none
    error_message := none
    created_at := "t0"
    started_at := none
    completed_at := none
    build_commit := none
    model_type := none
    model_size := none
    model_n_params := none
    gpu_info := none
    cpu_info := none }

/-- C5: `recover_stale_runs` returns the number of rows whose status is
`pending` or `running`, transitions exactly those rows to `failed` with the
fixed restart-interruption message and the completion timestamp, and leaves
every row in a terminal status (`completed`, `failed`, `cancelled`) entirely
unchanged. -/
theorem recover_stale_runs_correct (db : List RunRow) (now : String) :
    (recover_stale_runs db now).2 = db.countP (fun r => isStale r) ∧
    (recover_stale_runs db now).1.length = db.length ∧
    (∀ (i : Nat) (r : RunRow), db[i]? = some r →
      (isStale r = true →
        (recover_stale_runs db now).1[i]? = some
          { r with
            status := "failed"
            error_message := some "Benchmark interrupted by server restart"
            completed_at := some now }) ∧
      ((r.status = "completed" ∨ r.status = "failed" ∨ r.status = "cancelled") →
        (recover_stale_runs db now).1[i]? = some r)) := by
  refine ⟨rfl, by simp [recover_stale_runs], ?_⟩
  intro i r hir
  have hmap : (recover_stale_runs db now).1[i]? = (db[i]?).map (recoverRow now) := by
    simp [recover_stale_runs]
  constructor
  · intro hstale
    rw [hmap, hir]
    simp [recoverRow, hstale]
  · intro hterm
    have hns : isStale r = false := by
      rcases hterm with h | h | h <;> simp [isStale, h]
    rw [hmap, hir]
    simp [recoverRow, hns]

/-- C5 witness: one pending and one completed row; the pending row fails,
the completed row is untouched, and the count is 1. -/
theorem recover_stale_runs_correct_witness :
    (recover_stale_runs [mkRow "a" "pending", mkRow "b" "completed"] "t1").2 = 1 ∧
    ((recover_stale_runs [mkRow "a" "pending", mkRow "b" "completed"] "t1").1[0]?).map
      RunRow.status = some "failed" ∧
    (recover_stale_runs [mkRow "a" "pending", mkRow "b" "completed"] "t1").1[1]?
      = some (mkRow "b" "completed") := by
  have h := recover_stale_runs_correct [mkRow "a" "pending", mkRow "b" "completed"] "t1"
  refine ⟨by rw [h.1]; decide, ?_, ?_⟩
  · rw [(h.2.2 0 (mkRow "a" "pending") (by decide)).1 (by decide)]
    decide
  · exact (h.2.2 1 (mkRow "b" "completed") (by decide)).2 (Or.inl rfl)

/-- C6 counterexample: cancelling a run whose status is already terminal
(`completed`) rewrites its status to `cancelled` — `update_status` sets the
status unconditionally and `cancel_benchmark` calls it unconditionally, so
terminal runs are not immutable under store/supervisor operations and the
transition `completed -> cancelled` revisits no-longer-reachable state. -/
theorem cancel_terminal_counterexample :
    ((cancel_benchmark [mkRow "r1" "completed"] "r1" "t1").1.map RunRow.status)
      = ["cancelled"] ∧ (mkRow "r1" "completed").status = "completed" := by
  decide

theorem beq_false_of_ne {a b : String} (h : ¬ (a == b) = true) : a ≠ b := by
  intro heq
  exact h (by simp [heq])

/-- C6 amended: the store and supervisor themselves enforce no terminal-state
immutability — `cancel_benchmark` marks every row with the given id
`cancelled` whatever its prior status (see the counterexample).  The
monotonic lifecycle is enforced one layer up, in the DELETE route: a run
found in a terminal status is only ever deleted, never status-changed, and
store updates aimed at one id leave every other row unchanged. -/
theorem terminal_status_amended (db : List RunRow) (run_id now : String) (r : RunRow)
    (hfind : db.find? (fun x => x.id == run_id) = some r)
    (hterm : r.status = "completed" ∨ r.status = "failed" ∨ r.status = "cancelled") :
    delete_benchmark db run_id now = delete_run db run_id ∧
    (∀ x ∈ (cancel_benchmark db run_id now).1, x.id = run_id → x.status = "cancelled") ∧
    (∀ (i : Nat) (x : RunRow), db[i]? = some x → x.id ≠ run_id →
      ∀ status sa ca em, (update_status db run_id status sa ca em)[i]? = some x) := by
  refine ⟨?_, ?_, ?_⟩
  · unfold delete_benchmark
    rw [hfind]
    have hcond : (r.status == "pending" || r.status == "running") = false := by
      rcases hterm with h | h | h <;> rw [h] <;> rfl
    simp only [hcond, Bool.false_eq_true, if_false]
  · intro x hx hid
    have hx2 : x ∈ update_status db run_id "cancelled" none (some now) none := hx
    unfold update_status at hx2
    rcases List.mem_map.mp hx2 with ⟨y, _, hxy⟩
    by_cases hyid : (y.id == run_id) = true
    · rw [if_pos hyid] at hxy
      rw [← hxy]
    · rw [if_neg hyid] at hxy
      subst hxy
      exact absurd hid (beq_false_of_ne hyid)
  · intro i x hx hne status sa ca em
    unfold update_status
    rw [List.getElem?_map, hx]
    simp [hne]

/-- C6 amended, witness: a terminal run is deleted by the route, not
cancelled. -/
theorem terminal_status_amended_witness :
    delete_benchmark [mkRow "r1" "completed"] "r1" "t1"
      = delete_run [mkRow "r1" "completed"] "r1" := by
  exact (terminal_status_amended [mkRow "r1" "completed"] "r1" "t1"
    (mkRow "r1" "completed") (by decide) (Or.inl rfl)).1

/-- One `devices:` entry under `deploy.resources.reservations` in a compose
service, as read by `BenchmarkExecutor._extract_gpu_args`.  `count` holds
`str(device.get("count", "all"))` already applied. -/
structure DeviceSpec where
  capabilities : List String
  count : String
  deriving Repr, DecidableEq

/-- The slice of a compose service definition the benchmark executor reads:
volume mounts, GPU device reservations, and the IPC mode. -/
structure SvcComposeConfig where
  volumes : List String
  devices : List DeviceSpec
  ipc : Option String
  deriving Repr, DecidableEq

def LLAMA_BENCH_PATH : String := "/llama.cpp/build/bin/llama-bench"

def LLAMACPP_IMAGE : String := "llm-dock-llamacpp"

/-- Embedding of `BenchmarkExecutor._extract_volumes`: each volume string
with `"$\x7bHOME\x7d"` expanded to the home directory. -/
def extract_volumes (home : String) (cfg : SvcComposeConfig) : List String :=
  cfg.volumes.map (fun v => v.replace "$\x7bHOME\x7d" home)

/-- Embedding of `BenchmarkExecutor._extract_gpu_args`: the first device
whose capabilities contain `"gpu"` supplies `--gpus <count>`; otherwise
`--gpus all`. -/
def extract_gpu_args (cfg : SvcComposeConfig) : List String :=
  match cfg.devices.find? (fun d => d.capabilities.contains "gpu") with
  | some d => ["--gpus", d.count]
  | none => ["--gpus", "all"]

/-- Embedding of `BenchmarkExecutor._extract_ipc` (`if ipc:` — Python
truthiness, so an empty string produces nothing). -/
def extract_ipc (cfg : SvcComposeConfig) : List String :=
  match cfg.ipc with
  | some s => if s = "" then [] else ["--ipc", s]
  | none => []

/-- The `["-v", vol]` pairs appended for each extracted volume. -/
def volume_args (vols : List String) : List String :=
  vols.foldr (fun v acc => "-v" :: v :: acc) []

/-- The defensive quote stripping in `_build_docker_cmd`: strip whitespace,
then one layer of matching double or single quotes. -/
def strip_value (value : String) : String :=
  let stripped := value.trim
  if stripped ≠ "" ∧
      ((stripped.front = '"' ∧ stripped.back = '"') ∨
        (stripped.front = Char.ofNat 39 ∧ stripped.back = Char.ofNat 39)) then
    (stripped.drop 1).dropRight 1
  else stripped

/-- The parameter loop of `_build_docker_cmd`: skip the reserved flags `-m`
and `-o` entirely, append every other flag, and append its (quote-stripped)
value when the raw value is truthy. -/
def param_args : List (String × String) → List String
  | [] => []
  | (flag, value) :: rest =>
    if flag = "-m" ∨ flag = "-o" then param_args rest
    else flag :: ((if value = "" then [] else [strip_value value]) ++ param_args rest)

/-- Embedding of `BenchmarkExecutor._build_docker_cmd`.  `serviceConfig` is
the result of `_get_service_compose_config` (`none` both when the compose
file has no such service and when reading it failed). -/
def build_docker_cmd (serviceConfig : Option SvcComposeConfig) (home : String)
    (model_path : String) (params : List (String × String)) : List String :=
  (["docker", "run", "--rm"] ++
    (match serviceConfig with
      | some cfg => extract_gpu_args cfg ++ extract_ipc cfg ++
          volume_args (extract_volumes home cfg)
      | none =>
          ["--gpus", "all", "--ipc", "host",
            "-v", home ++ "/.cache/huggingface:/hf-cache",
            "-v", home ++ "/.cache/models:/local-models:ro"]) ++
    [LLAMACPP_IMAGE, LLAMA_BENCH_PATH, "-m", model_path, "-o", "json"]) ++
  param_args params

theorem param_args_filter (params : List (String × String)) :
    param_args params =
      param_args (params.filter (fun kv => !(kv.1 == "-m" || kv.1 == "-o"))) := by
  induction params with
  | nil => rfl
  | cons kv rest ih =>
    obtain ⟨flag, value⟩ := kv
    rw [List.filter_cons]
    by_cases hf : flag = "-m" ∨ flag = "-o"
    · have hcond : (!(flag == "-m" || flag == "-o")) = false := by
        rcases hf with h | h <;> simp [h]
      rw [hcond]
      simp only [Bool.false_eq_true, if_false]
      rw [param_args, if_pos hf]
      exact ih
    · have hcond : (!(flag == "-m" || flag == "-o")) = true := by
        push_neg at hf
        simp [hf.1, hf.2]
      rw [hcond]
      simp only [eq_self_iff_true, if_true]
      rw [param_args, param_args, if_neg hf, if_neg hf, ih]

/-- C2: the assembled benchmark command always contains the supplier's
`-m <model_path> -o json` segment, and the caller's parameter map only
contributes through its non-reserved entries: the `-m`/`-o` entries of the
map are dropped, so two maps that agree outside `-m`/`-o` produce identical
commands. -/
theorem reserved_flags_supplier_controlled (serviceConfig : Option SvcComposeConfig)
    (home model_path : String) (params params2 : List (String × String)) :
    (∃ pre, build_docker_cmd serviceConfig home model_path params =
      pre ++ ["-m", model_path, "-o", "json"] ++ param_args params) ∧
    param_args params =
      param_args (params.filter (fun kv => !(kv.1 == "-m" || kv.1 == "-o"))) ∧
    (params.filter (fun kv => !(kv.1 == "-m" || kv.1 == "-o")) =
        params2.filter (fun kv => !(kv.1 == "-m" || kv.1 == "-o")) →
      build_docker_cmd serviceConfig home model_path params =
        build_docker_cmd serviceConfig home model_path params2) := by
  refine ⟨?_, param_args_filter params, ?_⟩
  · refine ⟨["docker", "run", "--rm"] ++
      (match serviceConfig with
        | some cfg => extract_gpu_args cfg ++ extract_ipc cfg ++
            volume_args (extract_volumes home cfg)
        | none =>
            ["--gpus", "all", "--ipc", "host",
              "-v", home ++ "/.cache/huggingface:/hf-cache",
              "-v", home ++ "/.cache/models:/local-models:ro"]) ++
      [LLAMACPP_IMAGE, LLAMA_BENCH_PATH], ?_⟩
    unfold build_docker_cmd
    cases serviceConfig <;> simp
  · intro hagree
    unfold build_docker_cmd
    rw [param_args_filter params, hagree, ← param_args_filter params2]

/-- C2 witness: a parameter map that tries to override `-m` and `-o`
produces the same command as one without those entries. -/
theorem reserved_flags_supplier_controlled_witness :
    (∃ pre, build_docker_cmd none "/home/u" "/models/a.gguf"
        [("-m", "/evil.gguf"), ("-o", "csv"), ("-p", "512")] =
      pre ++ ["-m", "/models/a.gguf", "-o", "json"] ++
        param_args [("-m", "/evil.gguf"), ("-o", "csv"), ("-p", "512")]) ∧
    build_docker_cmd none "/home/u" "/models/a.gguf"
        [("-m", "/evil.gguf"), ("-o", "csv"), ("-p", "512")] =
      build_docker_cmd none "/home/u" "/models/a.gguf" [("-p", "512")] := by
  have h := reserved_flags_supplier_controlled none "/home/u" "/models/a.gguf"
    [("-m", "/evil.gguf"), ("-o", "csv"), ("-p", "512")] [("-p", "512")]
  exact ⟨h.1, h.2.2 (by decide)⟩

/-- One entry of the JSON array emitted by llama-bench, restricted to the
keys `_parse_and_store_results` reads.  `entry.get(k)` for an absent key (or
a JSON null) is `none`; JSON numbers are modelled as integers, their values
only being copied into the stored metrics. -/
structure BenchEntry where
  avg_ts : Option Int
  stddev_ts : Option Int
  n_prompt : Option Int
  n_gen : Option Int
  build_commit : Option String
  model_type : Option String
  model_size : Option Int
  model_n_params : Option Int
  gpu_info : Option String
  cpu_info : Option String
  deriving Repr, DecidableEq

/-- The accumulator of the extraction loop in `_parse_and_store_results`:
the local variables initialised to `None` before the `for entry in results`
loop. -/
structure Metrics where
  pp_avg : Option Int
  pp_stddev : Option Int
  tg_avg : Option Int
  tg_stddev : Option Int
  build_commit : Option String
  model_type : Option String
  model_size : Option Int
  model_n_params : Option Int
  gpu_info : Option String
  cpu_info : Option String
  deriving Repr, DecidableEq

def initMetrics : Metrics :=
  { pp_avg := none
    pp_stddev := none
    tg_avg := none
    tg_stddev := none
    build_commit := none
    model_type := none
    model_size := none
    model_n_params := none
    gpu_info := none
    cpu_info := none }

/-- The `if n_prompt and not n_gen` classification (Python truthiness of
`entry.get("n_prompt", 0)` and `entry.get("n_gen", 0)`). -/
def isPP (e : BenchEntry) : Bool :=
  (e.n_prompt.getD 0 != 0) && (e.n_gen.getD 0 == 0)

/-- The `elif n_gen and not n_prompt` classification. -/
def isTG (e : BenchEntry) : Bool :=
  (e.n_gen.getD 0 != 0) && (e.n_prompt.getD 0 == 0)

/-- The `if x is None: x = entry.get(...)` idiom: keep the first value seen. -/
def keepFirst {α : Type} : Option α → Option α → Option α
  | some v, _ => some v
  | none, y => y

/-- One iteration of the `for entry in results` loop: the pp/tg branches
overwrite the metric variables unconditionally (no first-wins guard), the
metadata fields keep the first non-`None` value. -/
def metricsStep (acc : Metrics) (e : BenchEntry) : Metrics :=
  let acc1 :=
    if isPP e then
      { acc with pp_avg := e.avg_ts, pp_stddev := e.stddev_ts }
    else if isTG e then
      { acc with tg_avg := e.avg_ts, tg_stddev := e.stddev_ts }
    else acc
  { acc1 with
    build_commit := keepFirst acc1.build_commit e.build_commit
    model_type := keepFirst acc1.model_type e.model_type
    model_size := keepFirst acc1.model_size e.model_size
    model_n_params := keepFirst acc1.model_n_params e.model_n_params
    gpu_info := keepFirst acc1.gpu_info e.gpu_info
    cpu_info := keepFirst acc1.cpu_info e.cpu_info }

/-- The full extraction loop of `_parse_and_store_results` over a parsed
result array. -/
def extract_metrics (results : List BenchEntry) : Metrics :=
  results.foldl metricsStep initMetrics

theorem isPP_isTG_exclusive (e : BenchEntry) : ¬(isPP e = true ∧ isTG e = true) := by
  rintro ⟨h1, h2⟩
  unfold isPP at h1
  unfold isTG at h2
  simp only [Bool.and_eq_true, bne_iff_ne, beq_iff_eq] at h1 h2
  exact h1.1 h2.2

theorem metricsStep_pp_avg (acc : Metrics) (e : BenchEntry) :
    (metricsStep acc e).pp_avg = if isPP e then e.avg_ts else acc.pp_avg := by
  unfold metricsStep
  cases hp : isPP e with
  | true => rfl
  | false =>
    cases ht : isTG e with
    | true => rfl
    | false => rfl

theorem metricsStep_pp_stddev (acc : Metrics) (e : BenchEntry) :
    (metricsStep acc e).pp_stddev = if isPP e then e.stddev_ts else acc.pp_stddev := by
  unfold metricsStep
  cases hp : isPP e with
  | true => rfl
  | false =>
    cases ht : isTG e with
    | true => rfl
    | false => rfl

theorem metricsStep_tg_avg (acc : Metrics) (e : BenchEntry) :
    (metricsStep acc e).tg_avg = if isTG e then e.avg_ts else acc.tg_avg := by
  unfold metricsStep
  cases hp : isPP e with
  | true =>
    cases ht : isTG e with
    | true => exact absurd ⟨hp, ht⟩ (isPP_isTG_exclusive e)
    | false => rfl
  | false =>
    cases ht : isTG e with
    | true => rfl
    | false => rfl

theorem metricsStep_tg_stddev (acc : Metrics) (e : BenchEntry) :
    (metricsStep acc e).tg_stddev = if isTG e then e.stddev_ts else acc.tg_stddev := by
  unfold metricsStep
  cases hp : isPP e with
  | true =>
    cases ht : isTG e with
    | true => exact absurd ⟨hp, ht⟩ (isPP_isTG_exclusive e)
    | false => rfl
  | false =>
    cases ht : isTG e with
    | true => rfl
    | false => rfl

theorem metricsStep_meta (acc : Metrics) (e : BenchEntry) :
    (metricsStep acc e).build_commit = keepFirst acc.build_commit e.build_commit ∧
    (metricsStep acc e).model_type = keepFirst acc.model_type e.model_type ∧
    (metricsStep acc e).model_size = keepFirst acc.model_size e.model_size ∧
    (metricsStep acc e).model_n_params = keepFirst acc.model_n_params e.model_n_params ∧
    (metricsStep acc e).gpu_info = keepFirst acc.gpu_info e.gpu_info ∧
    (metricsStep acc e).cpu_info = keepFirst acc.cpu_info e.cpu_info := by
  unfold metricsStep
  cases hp : isPP e with
  | true => exact ⟨rfl, rfl, rfl, rfl, rfl, rfl⟩
  | false =>
    cases ht : isTG e with
    | true => exact ⟨rfl, rfl, rfl, rfl, rfl, rfl⟩
    | false => exact ⟨rfl, rfl, rfl, rfl, rfl, rfl⟩

theorem keepFirst_assoc {α : Type} (a b c : Option α) :
    keepFirst (keepFirst a b) c = keepFirst a (keepFirst b c) := by
  cases a <;> rfl

theorem getLast?_cons_of_some {α : Type} (x : α) (t : List α) (e : α)
    (h : t.getLast? = some e) : (x :: t).getLast? = some e := by
  cases t with
  | nil => cases h
  | cons y ys => rw [List.getLast?_cons_cons]; exact h

theorem foldl_metric_field (p : BenchEntry → Bool) (f : BenchEntry → Option Int)
    (g : Metrics → Option Int)
    (hstep : ∀ acc e, g (metricsStep acc e) = if p e then f e else g acc) :
    ∀ (l : List BenchEntry) (acc : Metrics),
      g (l.foldl metricsStep acc) =
        match (l.filter p).getLast? with
        | some e => f e
        | none => g acc := by
  intro l
  induction l with
  | nil => intro acc; rfl
  | cons x xs ih =>
    intro acc
    rw [List.foldl_cons, ih, List.filter_cons]
    cases hp : p x with
    | false =>
      simp only [Bool.false_eq_true, if_false]
      cases hl : (xs.filter p).getLast? with
      | some e => rfl
      | none =>
        rw [hstep, hp]
        simp only [Bool.false_eq_true, if_false]
    | true =>
      simp only [if_true]
      cases hl : (xs.filter p).getLast? with
      | some e => rw [getLast?_cons_of_some x _ e hl]
      | none =>
        have hnil : xs.filter p = [] := List.getLast?_eq_none_iff.mp hl
        rw [hnil]
        rw [hstep, hp]
        rfl

theorem foldl_meta_field {α : Type} (f : BenchEntry → Option α) (g : Metrics → Option α)
    (hstep : ∀ acc e, g (metricsStep acc e) = keepFirst (g acc) (f e)) :
    ∀ (l : List BenchEntry) (acc : Metrics),
      g (l.foldl metricsStep acc) = keepFirst (g acc) ((l.filterMap f).head?) := by
  intro l
  induction l with
  | nil =>
    intro acc
    rw [List.foldl_nil]
    cases hacc : g acc <;> rfl
  | cons x xs ih =>
    intro acc
    rw [List.foldl_cons, ih, hstep, keepFirst_assoc, List.filterMap_cons]
    cases hf : f x with
    | none => rfl
    | some b => rfl

/-- C3 counterexample: two prompt-processing samples in one result array —
the first has `avg_ts = 100`, but the stored `pp_avg` is `200`, the value of
the LAST matching sample, refuting the claimed first-sample-wins policy for
the pp/tg metrics. -/
theorem first_sample_wins_counterexample :
    isPP { avg_ts := some 100
           stddev_ts := some 1
           n_prompt := some 512
           n_gen := none
           build_commit := none
           model_type := none
           model_size := none
           model_n_params := none
           gpu_info := none
           cpu_info := none } = true ∧
    (extract_metrics
      [{ avg_ts := some 100
         stddev_ts := some 1
         n_prompt := some 512
         n_gen := none
         build_commit := none
         model_type := none
         model_size := none
         model_n_params := none
         gpu_info := none
         cpu_info := none },
       { avg_ts := some 200
         stddev_ts := some 2
         n_prompt := some 512
         n_gen := none
         build_commit := none
         model_type := none
         model_size := none
         model_n_params := none
         gpu_info := none
         cpu_info := none }]).pp_avg = some 200 ∧
    (some (200 : Int) ≠ some (100 : Int)) := by
  refine ⟨by decide, by decide, by decide⟩

/-- C3 amended: an entry is classified as a prompt-processing sample iff its
prompt-token count is truthy (nonzero) and its generation-token count falsy,
and symmetrically for token-generation samples; the stored pp and tg metrics
come from the LAST matching sample of each kind in array order (each later
duplicate overwrites the earlier one), while the side metadata fields do
keep the value of the FIRST entry that has each of them. -/
theorem extract_metrics_spec (results : List BenchEntry) :
    (∀ e, isPP e = true ↔ (e.n_prompt.getD 0 ≠ 0 ∧ e.n_gen.getD 0 = 0)) ∧
    (∀ e, isTG e = true ↔ (e.n_gen.getD 0 ≠ 0 ∧ e.n_prompt.getD 0 = 0)) ∧
    (extract_metrics results).pp_avg
      = ((results.filter isPP).getLast?).bind BenchEntry.avg_ts ∧
    (extract_metrics results).pp_stddev
      = ((results.filter isPP).getLast?).bind BenchEntry.stddev_ts ∧
    (extract_metrics results).tg_avg
      = ((results.filter isTG).getLast?).bind BenchEntry.avg_ts ∧
    (extract_metrics results).tg_stddev
      = ((results.filter isTG).getLast?).bind BenchEntry.stddev_ts ∧
    (extract_metrics results).build_commit
      = (results.filterMap BenchEntry.build_commit).head? ∧
    (extract_metrics results).model_type
      = (results.filterMap BenchEntry.model_type).head? ∧
    (extract_metrics results).model_size
      = (results.filterMap BenchEntry.model_size).head? ∧
    (extract_metrics results).model_n_params
      = (results.filterMap BenchEntry.model_n_params).head? ∧
    (extract_metrics results).gpu_info
      = (results.filterMap BenchEntry.gpu_info).head? ∧
    (extract_metrics results).cpu_info
      = (results.filterMap BenchEntry.cpu_info).head? := by
  refine ⟨?_, ?_, ?_, ?_, ?_, ?_, ?_, ?_, ?_, ?_, ?_, ?_⟩
  · intro e
    unfold isPP
    simp [bne_iff_ne]
  · intro e
    unfold isTG
    simp [bne_iff_ne]
  · rw [extract_metrics,
      foldl_metric_field isPP BenchEntry.avg_ts Metrics.pp_avg metricsStep_pp_avg]
    cases (results.filter isPP).getLast? <;> rfl
  · rw [extract_metrics,
      foldl_metric_field isPP BenchEntry.stddev_ts Metrics.pp_stddev metricsStep_pp_stddev]
    cases (results.filter isPP).getLast? <;> rfl
  · rw [extract_metrics,
      foldl_metric_field isTG BenchEntry.avg_ts Metrics.tg_avg metricsStep_tg_avg]
    cases (results.filter isTG).getLast? <;> rfl
  · rw [extract_metrics,
      foldl_metric_field isTG BenchEntry.stddev_ts Metrics.tg_stddev metricsStep_tg_stddev]
    cases (results.filter isTG).getLast? <;> rfl
  · rw [extract_metrics, foldl_meta_field BenchEntry.build_commit Metrics.build_commit
      (fun acc e => (metricsStep_meta acc e).1)]
    rfl
  · rw [extract_metrics, foldl_meta_field BenchEntry.model_type Metrics.model_type
      (fun acc e => (metricsStep_meta acc e).2.1)]
    rfl
  · rw [extract_metrics, foldl_meta_field BenchEntry.model_size Metrics.model_size
      (fun acc e => (metricsStep_meta acc e).2.2.1)]
    rfl
  · rw [extract_metrics, foldl_meta_field BenchEntry.model_n_params Metrics.model_n_params
      (fun acc e => (metricsStep_meta acc e).2.2.2.1)]
    rfl
  · rw [extract_metrics, foldl_meta_field BenchEntry.gpu_info Metrics.gpu_info
      (fun acc e => (metricsStep_meta acc e).2.2.2.2.1)]
    rfl
  · rw [extract_metrics, foldl_meta_field BenchEntry.cpu_info Metrics.cpu_info
      (fun acc e => (metricsStep_meta acc e).2.2.2.2.2)]
    rfl

/-- What `json.loads` can hand back on a successful parse: a result array
(further shaped into `BenchEntry` rows) or some other JSON value — the
source guards with `isinstance(results, list)`. -/
inductive JsonVal where
  | arr (entries : List BenchEntry)
  | notArr
  deriving Repr, DecidableEq

/-- Embedding of `BenchmarkExecutor._extract_json_array`: find the first
`[` (returning `None` when there is none) and hand the text from that
character on to the JSON parser; a parse error is `none`.  Texts are lists
of characters; `parseJson` stands for the external `json.loads`. -/
def extract_json_array (parseJson : List Char → Option JsonVal)
    (text : List Char) : Option JsonVal :=
  if '[' ∈ text then parseJson (text.dropWhile (fun c => !(c == '['))) else none

/-- How `_parse_and_store_results` terminates: the parse-failure `failed`
path (raw combined output attached), the empty-or-invalid `failed` path
(stdout attached), or `completed` with the extracted metrics and the stdout
text stored as raw output. -/
inductive ParseOutcome where
  | failedParse (raw_output : List Char)
  | failedEmpty (raw_output : List Char)
  | completed (metrics : Metrics) (raw_output : List Char)
  deriving Repr, DecidableEq

/-- The `isinstance`/emptiness check and the extraction, applied to a
successfully parsed value. -/
def checkResults : JsonVal → List Char → ParseOutcome
  | JsonVal.arr [], stdoutText => ParseOutcome.failedEmpty stdoutText
  | JsonVal.arr (e :: es), stdoutText =>
      ParseOutcome.completed (extract_metrics (e :: es)) stdoutText
  | JsonVal.notArr, stdoutText => ParseOutcome.failedEmpty stdoutText

/-- Embedding of `BenchmarkExecutor._parse_and_store_results`: try stdout,
then stderr; when both fail record `failed` with the combined raw text. -/
def parse_and_store_results (parseJson : List Char → Option JsonVal)
    (stdoutText stderrText : List Char) : ParseOutcome :=
  match extract_json_array parseJson stdoutText with
  | some r => checkResults r stdoutText
  | none =>
    match extract_json_array parseJson stderrText with
    | some r => checkResults r stdoutText
    | none =>
      ParseOutcome.failedParse
        ("stdout:\n".data ++ stdoutText ++ "\n\nstderr:\n".data ++ stderrText)

theorem dropWhile_append_of_all {p : Char → Bool} {l1 l2 : List Char}
    (h : ∀ c ∈ l1, p c = true) : (l1 ++ l2).dropWhile p = l2.dropWhile p := by
  induction l1 with
  | nil => rfl
  | cons a t ih =>
    rw [List.cons_append, List.dropWhile_cons, h a (List.mem_cons_self _ _)]
    simp only [if_true]
    exact ih (fun c hc => h c (List.mem_cons_of_mem _ hc))

/-- C7: result parsing scans stdout for the first `[` and parses from
there; a `[`-free preamble never changes the outcome of the scan; when
stdout yields a non-empty array it wins regardless of stderr, otherwise
stderr gets the same treatment; when both streams fail the run is recorded
failed with the combined raw output attached, and when the first succeeding
stream yields an empty array or a non-array value the run is recorded
failed with the stdout text attached. -/
theorem parse_results_tolerant (parseJson : List Char → Option JsonVal)
    (stdoutText stderrText pre : List Char) :
    ('[' ∉ pre →
      extract_json_array parseJson (pre ++ stdoutText)
        = extract_json_array parseJson stdoutText) ∧
    (∀ e es, extract_json_array parseJson stdoutText = some (JsonVal.arr (e :: es)) →
      parse_and_store_results parseJson stdoutText stderrText
        = ParseOutcome.completed (extract_metrics (e :: es)) stdoutText) ∧
    (∀ e es, extract_json_array parseJson stdoutText = none →
      extract_json_array parseJson stderrText = some (JsonVal.arr (e :: es)) →
      parse_and_store_results parseJson stdoutText stderrText
        = ParseOutcome.completed (extract_metrics (e :: es)) stdoutText) ∧
    (extract_json_array parseJson stdoutText = none →
      extract_json_array parseJson stderrText = none →
      parse_and_store_results parseJson stdoutText stderrText
        = ParseOutcome.failedParse
            ("stdout:\n".data ++ stdoutText ++ "\n\nstderr:\n".data ++ stderrText)) ∧
    (∀ r, (extract_json_array parseJson stdoutText = some r ∨
        (extract_json_array parseJson stdoutText = none ∧
          extract_json_array parseJson stderrText = some r)) →
      (r = JsonVal.arr [] ∨ r = JsonVal.notArr) →
      parse_and_store_results parseJson stdoutText stderrText
        = ParseOutcome.failedEmpty stdoutText) := by
  refine ⟨?_, ?_, ?_, ?_, ?_⟩
  · intro hpre
    unfold extract_json_array
    by_cases hs : '[' ∈ stdoutText
    · rw [if_pos (List.mem_append.mpr (Or.inr hs)), if_pos hs]
      rw [dropWhile_append_of_all]
      intro c hc
      have : c ≠ '[' := by
        intro heq
        exact hpre (heq ▸ hc)
      simp [this]
    · have hno : '[' ∉ pre ++ stdoutText := by
        intro hmem
        rcases List.mem_append.mp hmem with h | h
        · exact hpre h
        · exact hs h
      rw [if_neg hno, if_neg hs]
  · intro e es h
    unfold parse_and_store_results
    rw [h]
    rfl
  · intro e es h1 h2
    unfold parse_and_store_results
    rw [h1, h2]
    rfl
  · intro h1 h2
    unfold parse_and_store_results
    rw [h1, h2]
  · intro r hr hshape
    unfold parse_and_store_results
    rcases hr with h | ⟨h1, h2⟩
    · rw [h]
      rcases hshape with rfl | rfl <;> rfl
    · rw [h1, h2]
      rcases hshape with rfl | rfl <;> rfl

/-- C7 witness: a stdout with a `cuda init` style preamble before the array
still parses, and the preamble lemma applies at a concrete input. -/
theorem parse_results_tolerant_witness :
    extract_json_array (fun t => if t.head? = some '[' then some (JsonVal.arr []) else none)
        ("cuda".data ++ "[]".data)
      = extract_json_array (fun t => if t.head? = some '[' then some (JsonVal.arr []) else none)
        "[]".data ∧
    parse_and_store_results
        (fun t => if t.head? = some '[' then some (JsonVal.arr []) else none)
        "[]".data "x".data
      = ParseOutcome.failedEmpty "[]".data := by
  have h := parse_results_tolerant
    (fun t => if t.head? = some '[' then some (JsonVal.arr []) else none)
    "[]".data "x".data "cuda".data
  refine ⟨h.1 (by decide), ?_⟩
  exact h.2.2.2.2 (JsonVal.arr []) (Or.inl (by decide)) (Or.inl rfl)

def RESERVED_FLAGS : List String := ["-m", "-o"]

/-- The `[a-zA-Z0-9\\-]*$` part of `FLAG_PATTERN` after the initial letter,
with Python's `$` semantics: without `re.MULTILINE`, `$` matches at the end
of the string and also just before one newline at the very end, so the
characters remaining after the body must be body-class characters (letters,
digits, dashes — note: no underscore) ending either at the true end or at a
single trailing newline.  A newline anywhere else fails, because the body
class cannot match it. -/
def bodyTail : List Char → Bool
  | [] => true
  | d :: rest =>
    if d = '\n' then rest.isEmpty
    else (d.isAlphanum || d == '-') && bodyTail rest

/-- The `[a-zA-Z][a-zA-Z0-9\\-]*$` tail of `FLAG_PATTERN`
(`benchmarking/validators.py`): a letter followed by `bodyTail`. -/
def flagBody : List Char → Bool
  | [] => false
  | c :: rest => c.isAlpha && bodyTail rest

/-- After the mandatory first dash: an optional second dash, then the body.
The second dash is consumed greedily, which agrees with the regex because
`[a-zA-Z]` can never match a dash. -/
def flagTail : List Char → Bool
  | [] => flagBody []
  | c2 :: rest2 => if c2 = '-' then flagBody rest2 else flagBody (c2 :: rest2)

/-- Decision procedure for `FLAG_PATTERN.match` with
`FLAG_PATTERN = ^--?[a-zA-Z][a-zA-Z0-9\\-]*$`, including the `$`-before-a-
trailing-newline behaviour of the Python `re` module (so `"-p\n"` matches,
as it does in the source). -/
def flagPatternMatch : List Char → Bool
  | [] => false
  | c :: rest => if c = '-' then flagTail rest else false

/-- Model of Python `flag.startswith("-")`. -/
def startsWithDash (flag : String) : Bool :=
  match flag.data with
  | [] => false
  | c :: _ => c == '-'

/-- Embedding of `validators.validate_flag_name`: empty check, leading-dash
check, reserved-flag check, then the `FLAG_PATTERN` match. -/
def validate_flag_name (flag : String) : Bool × Option String :=
  if flag.data = [] then (false, some "Flag name cannot be empty")
  else if ¬ startsWithDash flag then (false, some "Flag must start with dash")
  else if flag ∈ RESERVED_FLAGS then (false, some "Reserved flag cannot be overridden")
  else if ¬ flagPatternMatch flag.data then (false, some "Invalid flag format")
  else (true, none)

/-- The character class of `UNSAFE_VALUE_PATTERN` — semicolon, pipe,
backtick, dollar, newline. -/
def UNSAFE_VALUE_CHARS : List Char := [';', '|', Char.ofNat 96, '$', '\n']

/-- Embedding of `validators.validate_flag_value`. -/
def validate_flag_value (value : String) : Bool × Option String :=
  if value.length > 1024 then (false, some "Value too long (max 1024 characters)")
  else if value.data.any (fun c => decide (c ∈ UNSAFE_VALUE_CHARS)) then
    (false, some "Unsafe characters in value")
  else (true, none)

/-- The per-entry loop of `validators.validate_params`, returning at the
first failing flag or value. -/
def validate_params_loop : List (String × String) → Bool × Option String
  | [] => (true, none)
  | (flag, value) :: rest =>
    if (validate_flag_name flag).1 = false then (false, (validate_flag_name flag).2)
    else if (validate_flag_value value).1 = false then (false, (validate_flag_value value).2)
    else validate_params_loop rest

/-- Embedding of `validators.validate_params` (the caller-supplied map as an
insertion-ordered association list; the `isinstance` checks are typed away). -/
def validate_params (params : List (String × String)) : Bool × Option String :=
  if params.length > 50 then (false, some "Too many parameters (max 50)")
  else validate_params_loop params

/-- Embedding of `flag_metadata.validate_custom_flag_name`: strips ALL
leading dashes and accepts a non-empty body of alphanumerics, dashes and
underscores — unlike `validate_flag_name`, underscores pass here. -/
def validate_custom_flag_name (flag : String) : Bool × Option String :=
  if flag.data = [] then (false, some "Flag name cannot be empty")
  else if ¬ startsWithDash flag then (false, some "Flag name must start with dash")
  else
    let namePart := flag.data.dropWhile (fun c => c == '-')
    if namePart = [] then (false, some "Flag name cannot be just dashes")
    else if ¬ namePart.all (fun c => c.isAlphanum || c == '-' || c == '_') then
      (false, some "Invalid characters in flag name")
    else (true, none)

/-- The flag-token grammar in the SPEC's words ("leading dash, alnum/dash/
underscore body"): one or two leading dashes (two consumed greedily) and a
non-empty body of alphanumerics, dashes and underscores.  Defined from the
spec text, for comparison against the code's `FLAG_PATTERN`. -/
def specFlagGrammar (flag : String) : Bool :=
  match flag.data with
  | '-' :: '-' :: body =>
      !body.isEmpty && body.all (fun c => c.isAlphanum || c == '-' || c == '_')
  | '-' :: body =>
      !body.isEmpty && body.all (fun c => c.isAlphanum || c == '-' || c == '_')
  | _ => false

/-- C9 counterexample: the flag `--ctx_size` is accepted by the spec's
grammar (and by `validate_custom_flag_name`, the service-config validator),
and its value `4096` is metacharacter-free — yet `validate_flag_name`
rejects it, and with it `validate_params` rejects the whole map, because
`FLAG_PATTERN` has no underscore in its body class. -/
theorem underscore_flag_counterexample :
    specFlagGrammar "--ctx_size" = true ∧
    (validate_custom_flag_name "--ctx_size").1 = true ∧
    (validate_flag_value "4096").1 = true ∧
    (validate_flag_name "--ctx_size").1 = false ∧
    (validate_params [("--ctx_size", "4096")]).1 = false := by
  decide

theorem startsWithDash_cons (flag : String) (c : Char) (rest : List Char)
    (hd : flag.data = c :: rest) : startsWithDash flag = (c == '-') := by
  unfold startsWithDash
  rw [hd]

theorem validate_flag_name_true_iff (flag : String) :
    (validate_flag_name flag).1 = true ↔
      (flagPatternMatch flag.data = true ∧ flag ≠ "-m" ∧ flag ≠ "-o") := by
  unfold validate_flag_name
  constructor
  · intro h
    by_cases h1 : flag.data = []
    · rw [if_pos h1] at h
      exact absurd h (by simp)
    · rw [if_neg h1] at h
      by_cases h2 : startsWithDash flag
      · rw [if_neg (not_not_intro h2)] at h
        by_cases h3 : flag ∈ RESERVED_FLAGS
        · rw [if_pos h3] at h
          exact absurd h (by simp)
        · rw [if_neg h3] at h
          by_cases h4 : flagPatternMatch flag.data
          · refine ⟨h4, fun heq => h3 (heq ▸ List.mem_cons_self _ _), fun heq => ?_⟩
            exact h3 (by rw [heq]; exact List.mem_cons_of_mem _ (List.mem_cons_self _ _))
          · rw [if_pos h4] at h
            exact absurd h (by simp)
      · rw [if_pos h2] at h
        exact absurd h (by simp)
  · rintro ⟨hp, hm, ho⟩
    have hdata : ¬ flag.data = [] := by
      intro h0
      rw [h0] at hp
      exact absurd hp (by simp [flagPatternMatch])
    have hdash : startsWithDash flag = true := by
      cases hd : flag.data with
      | nil => exact absurd hd hdata
      | cons c rest =>
        rw [hd] at hp
        rw [startsWithDash_cons flag c rest hd]
        replace hp : (if c = '-' then flagTail rest else false) = true := hp
        by_cases hc : c = '-'
        · simp [hc]
        · rw [if_neg hc] at hp
          exact absurd hp (by simp)
    have hres : flag ∉ RESERVED_FLAGS := by
      intro hmem
      rcases List.mem_cons.mp hmem with h | h
      · exact hm h
      · rcases List.mem_cons.mp h with h | h
        · exact ho h
        · cases h
    rw [if_neg hdata, if_neg (not_not_intro hdash), if_neg hres,
      if_neg (not_not_intro hp)]

theorem validate_flag_value_true_iff (value : String) :
    (validate_flag_value value).1 = true ↔
      (value.length ≤ 1024 ∧ ∀ c ∈ value.data, c ∉ UNSAFE_VALUE_CHARS) := by
  unfold validate_flag_value
  by_cases h1 : value.length > 1024
  · rw [if_pos h1]
    constructor
    · intro h
      exact absurd h (by simp)
    · rintro ⟨hl, -⟩
      omega
  · rw [if_neg h1]
    by_cases h2 : value.data.any (fun c => decide (c ∈ UNSAFE_VALUE_CHARS)) = true
    · rw [if_pos h2]
      constructor
      · intro h
        exact absurd h (by simp)
      · rintro ⟨-, hc⟩
        rcases List.any_eq_true.mp h2 with ⟨c, hcmem, hcdec⟩
        exact absurd (of_decide_eq_true hcdec) (hc c hcmem)
    · rw [if_neg h2]
      constructor
      · intro _
        refine ⟨by omega, ?_⟩
        intro c hcmem hcu
        exact h2 (List.any_eq_true.mpr ⟨c, hcmem, decide_eq_true hcu⟩)
      · intro _
        rfl

theorem validate_params_loop_true_iff (params : List (String × String)) :
    (validate_params_loop params).1 = true ↔
      ∀ fv ∈ params,
        (validate_flag_name fv.1).1 = true ∧ (validate_flag_value fv.2).1 = true := by
  induction params with
  | nil =>
    constructor
    · intro _ fv hfv
      cases hfv
    · intro _
      rfl
  | cons fv rest ih =>
    obtain ⟨flag, value⟩ := fv
    unfold validate_params_loop
    by_cases h1 : (validate_flag_name flag).1 = false
    · rw [if_pos h1]
      constructor
      · intro h
        exact absurd h (by simp)
      · intro h
        have h0 := (h (flag, value) (List.mem_cons_self _ _)).1
        rw [h1] at h0
        exact absurd h0 (by simp)
    · rw [if_neg h1]
      have h1t : (validate_flag_name flag).1 = true := by
        cases hb : (validate_flag_name flag).1 with
        | true => rfl
        | false => exact absurd hb h1
      by_cases h2 : (validate_flag_value value).1 = false
      · rw [if_pos h2]
        constructor
        · intro h
          exact absurd h (by simp)
        · intro h
          have h0 := (h (flag, value) (List.mem_cons_self _ _)).2
          rw [h2] at h0
          exact absurd h0 (by simp)
      · rw [if_neg h2]
        have h2t : (validate_flag_value value).1 = true := by
          cases hb : (validate_flag_value value).1 with
          | true => rfl
          | false => exact absurd hb h2
        rw [ih]
        constructor
        · intro h fv2 hfv2
          rcases List.mem_cons.mp hfv2 with rfl | hfv2
          · exact ⟨h1t, h2t⟩
          · exact h fv2 hfv2
        · intro h fv2 hfv2
          exact h fv2 (List.mem_cons_of_mem _ hfv2)

theorem bodyTail_no_underscore : ∀ (l : List Char), bodyTail l = true →
    Char.ofNat 95 ∉ l := by
  intro l
  induction l with
  | nil =>
    intro _
    simp
  | cons d rest ih =>
    intro h
    replace h : (if d = '\n' then rest.isEmpty
        else (d.isAlphanum || d == '-') && bodyTail rest) = true := h
    by_cases hd : d = '\n'
    · rw [if_pos hd] at h
      cases rest with
      | nil =>
        intro hmem
        rcases List.mem_cons.mp hmem with heq | hmem2
        · rw [hd] at heq
          exact absurd heq (by decide)
        · cases hmem2
      | cons e es => exact absurd h (by simp)
    · rw [if_neg hd] at h
      simp only [Bool.and_eq_true] at h
      obtain ⟨hc, hrest⟩ := h
      intro hmem
      rcases List.mem_cons.mp hmem with heq | hmem2
      · rw [← heq] at hc
        exact absurd hc (by decide)
      · exact ih hrest hmem2

theorem flagBody_no_underscore (l : List Char) (h : flagBody l = true) :
    Char.ofNat 95 ∉ l := by
  cases l with
  | nil => exact absurd h (by simp [flagBody])
  | cons c rest =>
    simp only [flagBody, Bool.and_eq_true] at h
    obtain ⟨hc, hrest⟩ := h
    intro hmem
    rcases List.mem_cons.mp hmem with heq | hmem2
    · rw [← heq] at hc
      exact absurd hc (by decide)
    · exact bodyTail_no_underscore rest hrest hmem2

theorem flagTail_no_underscore (l : List Char) (h : flagTail l = true) :
    Char.ofNat 95 ∉ l := by
  cases l with
  | nil => exact absurd h (by simp [flagTail, flagBody])
  | cons c2 rest2 =>
    replace h : (if c2 = Char.ofNat 45 then flagBody rest2 else flagBody (c2 :: rest2)) = true := h
    by_cases hc2 : c2 = '-'
    · rw [if_pos hc2] at h
      intro hmem
      rcases List.mem_cons.mp hmem with heq | hmem2
      · rw [hc2] at heq
        exact absurd heq (by decide)
      · exact flagBody_no_underscore rest2 h hmem2
    · rw [if_neg hc2] at h
      exact flagBody_no_underscore (c2 :: rest2) h

theorem flagPatternMatch_no_underscore (l : List Char)
    (h : flagPatternMatch l = true) : Char.ofNat 95 ∉ l := by
  cases l with
  | nil => exact absurd h (by simp [flagPatternMatch])
  | cons c rest =>
    replace h : (if c = Char.ofNat 45 then flagTail rest else false) = true := h
    by_cases hc : c = '-'
    · rw [if_pos hc] at h
      intro hmem
      rcases List.mem_cons.mp hmem with heq | hmem2
      · rw [hc] at heq
        exact absurd heq (by decide)
      · exact flagTail_no_underscore rest h hmem2
    · rw [if_neg hc] at h
      exact absurd h (by simp)

/-- C9 amended: `validate_params` accepts a caller map exactly when it has
at most 50 entries and every flag name matches
`FLAG_PATTERN = ^--?[a-zA-Z][a-zA-Z0-9\\-]*$` under Python `re.match`
semantics — one or two leading dashes, then a letter-initial body of
alphanumerics and dashes (NO underscores), optionally followed by one
trailing newline, which Python's `$` tolerates (so the flag name `"-p\n"`
is accepted) — without being a reserved `-m`/`-o` flag, and every value is
at most 1024 characters with none of the shell metacharacters (semicolon,
pipe, backtick, dollar, newline).  A flag name containing an underscore is
always rejected by `validate_flag_name` (the benchmark-parameter grammar),
even though the service-config validator `validate_custom_flag_name`
accepts underscores (see the counterexample). -/
theorem validate_params_spec (params : List (String × String)) :
    ((validate_params params).1 = true ↔
      (params.length ≤ 50 ∧ ∀ fv ∈ params,
        flagPatternMatch fv.1.data = true ∧ fv.1 ≠ "-m" ∧ fv.1 ≠ "-o" ∧
        fv.2.length ≤ 1024 ∧ ∀ c ∈ fv.2.data, c ∉ UNSAFE_VALUE_CHARS)) ∧
    (validate_flag_name "-p\n").1 = true ∧
    (validate_flag_name "-p\n\n").1 = false ∧
    (∀ flag : String, Char.ofNat 95 ∈ flag.data →
      (validate_flag_name flag).1 = false) := by
  refine ⟨?_, by decide, by decide, ?_⟩
  · unfold validate_params
    by_cases hlen : params.length > 50
    · rw [if_pos hlen]
      constructor
      · intro h
        exact absurd h (by simp)
      · rintro ⟨hl, -⟩
        omega
    · rw [if_neg hlen, validate_params_loop_true_iff]
      constructor
      · intro h
        refine ⟨by omega, ?_⟩
        intro fv hfv
        have hfv2 := h fv hfv
        have hn := (validate_flag_name_true_iff fv.1).mp hfv2.1
        have hv := (validate_flag_value_true_iff fv.2).mp hfv2.2
        exact ⟨hn.1, hn.2.1, hn.2.2, hv.1, hv.2⟩
      · rintro ⟨-, h⟩
        intro fv hfv
        obtain ⟨h1, h2, h3, h4, h5⟩ := h fv hfv
        exact ⟨(validate_flag_name_true_iff fv.1).mpr ⟨h1, h2, h3⟩,
          (validate_flag_value_true_iff fv.2).mpr ⟨h4, h5⟩⟩
  · intro flag hmem
    cases hb : (validate_flag_name flag).1 with
    | false => rfl
    | true =>
      have hp := ((validate_flag_name_true_iff flag).mp hb).1
      exact absurd hmem (flagPatternMatch_no_underscore flag.data hp)

/-- C9 amended, witness: a well-formed map is accepted; an underscored flag
is rejected. -/
theorem validate_params_spec_witness :
    (validate_params [("-p", "512")]).1 = true ∧
    (validate_flag_name "--a_b").1 = false := by
  constructor
  · exact (validate_params_spec [("-p", "512")]).1.mpr ⟨by decide, by decide⟩
  · exact (validate_params_spec []).2.2.2 "--a_b" (by decide)

end Bench
end LlmDock
